import Mathlib

/-!
Shallow embedding of the dashboard assistant's AI gateway, translated from
`project/services/assistant_service.py` (class `DashboardAssistant`) and the
static tool catalog `TOOL_GUIDANCE` in `project/services/guidance_service.py`.

Modelling conventions:
* Python `float` timestamps (`time.time()`) are modelled as `Int`; each
  invocation of an operation is modelled as happening at a single instant
  `now` (only the relative order of instants across invocations matters for
  the properties studied here).
* A Python `dict` (insertion ordered) is modelled as an association list:
  update-in-place keeps the position of an existing key, a fresh key is
  appended at the end, `min(..., key=ts)` picks the first entry attaining the
  minimal timestamp, exactly as in CPython.
* A network attempt (`requests.post`) is modelled by an oracle
  `Nat → AttemptResult` consumed at successive indices; the gateway
  functions additionally return how many attempts they consumed, so "no
  provider was contacted" is expressed as "zero attempts consumed".
* A Python exception escaping `answer` is modelled as `Except.error ()`;
  exceptions raised inside the provider `try:` blocks are part of
  `AttemptResult.exception` / of the explicit `KeyError` branch for an
  unknown tool name in `_build_prompt`.
* String helpers are implemented over `String.data` so that every definition
  evaluates inside the kernel.
-/

/-! ### Python-style string primitives -/

def lowerStr (s : String) : String := ⟨s.data.map Char.toLower⟩

def pyStrip (s : String) : String :=
  ⟨((s.data.dropWhile Char.isWhitespace).reverse.dropWhile Char.isWhitespace).reverse⟩

def containsAux (needle : List Char) : List Char → Bool
  | [] => needle.isEmpty
  | c :: t => needle.isPrefixOf (c :: t) || containsAux needle t

/-- Python's substring test `needle in hay`. -/
def strContains (hay needle : String) : Bool := containsAux needle.data hay.data

def wordsAux : List Char → List Char → List String
  | cur, [] => if cur.isEmpty then [] else [⟨cur.reverse⟩]
  | cur, c :: t =>
    if c.isWhitespace then
      (if cur.isEmpty then wordsAux [] t else ⟨cur.reverse⟩ :: wordsAux [] t)
    else wordsAux (c :: cur) t

/-- Python's `s.split()` (split on whitespace runs, dropping empty pieces). -/
def pySplit (s : String) : List String := wordsAux [] s.data

def joinSpace : List String → String
  | [] => ""
  | [w] => w
  | w :: ws => w ++ " " ++ joinSpace ws

def underscoreToSpace (s : String) : String :=
  ⟨s.data.map (fun c => if c = '_' then ' ' else c)⟩

/-- Code-point lexicographic `<=`, as Python compares strings. -/
def charListLe : List Char → List Char → Bool
  | [], _ => true
  | _ :: _, [] => false
  | a :: as, b :: bs => if a < b then true else if b < a then false else charListLe as bs

def strLe (a b : String) : Bool := charListLe a.data b.data

def insertSorted (s : String) : List String → List String
  | [] => [s]
  | x :: xs => if strLe s x then s :: x :: xs else x :: insertSorted s xs

/-- Python's `sorted` on a list of strings. -/
def sortStrings (l : List String) : List String := l.foldr insertSorted []

/-- Python truthiness of an optional string (`None` and `""` are falsy). -/
def truthyS : Option String → Bool
  | none => false
  | some s => s ≠ ""

/-- Python's `x or y` on optional strings. -/
def pyOr (a b : Option String) : Option String := if truthyS a then a else b

def optVal (o : Option String) : String := o.getD ""

/-! ### The static tool catalog (`TOOL_GUIDANCE` in `guidance_service.py`) -/

structure Guidance where
  title : String
  description : String
  keywords : List String
  usage : List String
  exampleCall : String
  deriving DecidableEq, Repr

def whoisGuidance : Guidance :=
  { title := "WHOIS Lookup"
    description := "Retrieves registration metadata, registrar, owner hints, and key lifecycle dates for a domain."
    keywords := ["whois", "registration", "domain", "owner", "registrar", "expiration"]
    usage :=
      ["Provide a fully qualified domain name such as example.com (no protocol).",
       "Check creation/expiration dates to spot lapsed ownership risk.",
       "Review registrar and name servers for sudden changes that can signal hijacks.",
       "Use WHOIS email/phone fields cautiously—they may be redacted for privacy."]
    exampleCall := "/api/whois (POST with JSON payload: \x7b\"host\":\"example.com\"\x7d)" }

def dnsRecordsGuidance : Guidance :=
  { title := "DNS Records"
    description := "Enumerates standard DNS record types (A, AAAA, MX, CNAME, TXT) for resolution and mail flow validation."
    keywords := ["dns", "records", "mx", "cname", "txt", "ns", "spf", "dkim"]
    usage :=
      ["Run it when you need to confirm IP resolution or MX mail server settings.",
       "Compare A vs AAAA vs CNAME to catch conflicting host mappings.",
       "Inspect TXT for SPF/DKIM/DMARC posture and misconfigurations.",
       "Use alongside WHOIS to align DNS with the registered domain owner."]
    exampleCall := "/api/dns (POST with JSON payload: \x7b\"host\":\"example.com\"\x7d)" }

def ipGeolocationGuidance : Guidance :=
  { title := "IP Geolocation"
    description := "Translates a host into an IP address and fetches geographic/ASN data to validate hosting location."
    keywords := ["geoip", "geolocation", "location", "ip", "asn", "isp"]
    usage :=
      ["Combine with DNS or WHOIS to understand where the infrastructure lives.",
       "Use country/ISP/ASN data to flag traffic leaving expected regions.",
       "Correlate with port scan results to see if exposed services sit in risky geos."]
    exampleCall := "/api/geoip (POST with JSON payload: \x7b\"host\":\"example.com\"\x7d)" }

def portScanGuidance : Guidance :=
  { title := "Port Scan"
    description := "Checks whether a TCP port is open on the host for quick exposure checks."
    keywords := ["port", "scan", "tcp", "open", "exposure", "service"]
    usage :=
      ["Default port is 80; specify another port via the `port` field.",
       "Use this tool before intrusive scans; it keeps the timeout short and scope narrow.",
       "Scan common service ports (80, 443, 22, 3389, 8080) to inventory what’s reachable.",
       "If blocked or slow, confirm firewall rules or test from another vantage point."]
    exampleCall := "/api/port_scan (POST with JSON payload: \x7b\"host\":\"example.com\", \"port\":443\x7d)" }

def speedGuidance : Guidance :=
  { title := "Speed Test"
    description := "Measures download, upload, and ping speeds from the server's location to gauge connectivity quality."
    keywords := ["speed", "bandwidth", "ping", "download", "upload", "latency"]
    usage :=
      ["Run this to gauge the server’s outbound bandwidth before launching downloads.",
       "Expect a longer response time; inform users that it may take a minute.",
       "Compare multiple runs to spot congestion or throttling over time."]
    exampleCall := "/api/speed (POST without payload)" }

def domainGuidance : Guidance :=
  { title := "Domain Research"
    description := "Runs configurable diagnostics for WHOIS, DNS, GeoIP, and port scans in one request for quicker triage."
    keywords := ["domain research", "fields", "combined", "batch", "package", "bundle"]
    usage :=
      ["Send a `fields` array to control which tools run (default is all).",
       "Validate the port range (1-65535) before requesting a custom port scan.",
       "Use WHOIS + DNS + GeoIP together to spot mismatches across ownership, hosting, and routing.",
       "Start with a narrow `fields` list for speed, then expand when deeper detail is needed.",
       "Capture results to create a baseline and compare future runs for drift."]
    exampleCall := "/api/domain (POST with JSON payload: \x7b\"domain\":\"example.com\",\"fields\":[\"whois\",\"dns_records\"]\x7d)" }

/-- `TOOL_GUIDANCE`, in source (dict-iteration) order. -/
def toolGuidance : List (String × Guidance) :=
  [("whois", whoisGuidance),
   ("dns_records", dnsRecordsGuidance),
   ("ip_geolocation", ipGeolocationGuidance),
   ("port_scan", portScanGuidance),
   ("speed", speedGuidance),
   ("domain", domainGuidance)]

def lookupGuidance : String → Option Guidance :=
  fun k => (toolGuidance.find? (fun p => decide (p.1 = k))).map (·.2)

/-! ### Data model -/

/-- The recognised keys of the `context` dict (`tool`, `target`, `summary`);
`none` models an absent key. -/
structure Ctx where
  tool : Option String
  target : Option String
  summary : Option String
  deriving DecidableEq, Repr

def emptyCtx : Ctx := ⟨none, none, none⟩

/-- Python truthiness of the context dict: nonempty iff some key is present. -/
def ctxNonempty (c : Ctx) : Bool := c.tool.isSome || c.target.isSome || c.summary.isSome

/-- The response dicts produced by `DashboardAssistant`; absent dict keys are
modelled with `none` / `[]`. -/
structure Answer where
  tool : Option String
  answer : String
  tips : List String
  exampleCall : Option String
  suggested_actions : List String
  confidence : String
  context : Option Ctx
  available_tools : Option (List String)
  deriving DecidableEq, Repr

/-- Configuration read from the environment in `DashboardAssistant.__init__`.
`geminiEnabled`/`openaiEnabled` model the computed `gemini_enabled` /
`openai_enabled` flags, `geminiKey`/`openaiKey` the presence of the API keys. -/
structure Config where
  geminiEnabled : Bool
  geminiKey : Bool
  geminiMaxRetries : Nat
  geminiCircuitThreshold : Nat
  geminiCircuitCooldown : Int
  geminiCacheTtl : Int
  geminiCacheMax : Nat
  openaiEnabled : Bool
  openaiKey : Bool
  openaiMaxRetries : Nat
  openaiCircuitThreshold : Nat
  openaiCircuitCooldown : Int
  deriving DecidableEq, Repr

abbrev CacheKey := String × String × String

abbrev Cache := List (CacheKey × String × Int)

/-- The mutable per-instance state: `_gemini_failures`, `_gemini_circuit_until`,
`_openai_failures`, `_openai_circuit_until` and `_gemini_cache`. -/
structure AssistantState where
  geminiFailures : Nat
  geminiCircuitUntil : Int
  openaiFailures : Nat
  openaiCircuitUntil : Int
  cache : Cache
  deriving DecidableEq, Repr

/-! ### Dict operations (CPython semantics on an insertion-ordered map) -/

def dictGet : Cache → CacheKey → Option (String × Int)
  | [], _ => none
  | p :: t, k => if p.1 = k then some p.2 else dictGet t k

def dictSet : Cache → CacheKey → String × Int → Cache
  | [], k, v => [(k, v)]
  | p :: t, k, v => if p.1 = k then (k, v) :: t else p :: dictSet t k v

def dictPop : Cache → CacheKey → Cache
  | [], _ => []
  | p :: t, k => if p.1 = k then t else p :: dictPop t k

/-- `min(cache.items(), key=lambda item: item[1][1])`: first entry attaining
the minimal timestamp. -/
def dictOldest : Cache → Option (CacheKey × String × Int)
  | [] => none
  | p :: t =>
    match dictOldest t with
    | none => some p
    | some q => if q.2.2 < p.2.2 then some q else some p

/-! ### Pure helpers of `DashboardAssistant` -/

def default_actions : List String :=
  ["Review /api/tool-guidance?tool=whois to learn how the WHOIS lookup works.",
   "Use /api/domain with a `fields` array to combine multiple tools in one request.",
   "Check the FAQ or documentation panels inside the dashboard for more tips."]

/-- The keyword score `_resolve_tool` assigns to one catalog entry. -/
def resolve_score (text_lower : String) (kg : String × Guidance) : Nat :=
  (if strContains text_lower kg.1 then 3 else 0) +
    kg.2.keywords.foldl (fun n kw => if strContains text_lower kw then n + 1 else n) 0

/-- One step of the best-score fold in `_resolve_tool` (strict improvement
keeps the first-seen tool on ties). -/
def resolve_step (text_lower : String) (acc : Option String × Nat) (kg : String × Guidance) :
    Option String × Nat :=
  if resolve_score text_lower kg > acc.2 then (some kg.1, resolve_score text_lower kg) else acc

/-- `_resolve_tool`. -/
def resolve_tool (text : String) (tool_hint : Option String) : Option String :=
  let normalized_hint := lowerStr (pyStrip (optVal tool_hint))
  if normalized_hint ≠ "" ∧ (lookupGuidance normalized_hint).isSome then some normalized_hint
  else
    let best := toolGuidance.foldl (resolve_step (lowerStr text)) ((none : Option String), (0 : Nat))
    if best.2 > 0 then best.1 else none

/-- `_context_line`. -/
def context_line (c : Ctx) : String :=
  if ¬ ctxNonempty c then ""
  else
    let parts :=
      (if truthyS c.tool then ["Latest " ++ underscoreToSpace (optVal c.tool)] else []) ++
      (if truthyS c.target then ["on " ++ optVal c.target] else []) ++
      (if truthyS c.summary then ["(" ++ optVal c.summary ++ ")"] else [])
    pyStrip (joinSpace parts)

/-- `_build_suggestions` (given the guidance already looked up for `tool`). -/
def build_suggestions (tool : String) (g : Guidance) : List String :=
  (["Call `/api/tool-guidance?tool=" ++ tool ++ "` for step-by-step usage.", g.exampleCall] ++
    (if tool = "domain" then ["Include the `fields` payload to filter the diagnostics you need."] else [])).filter
    (fun a => a ≠ "")

def wrapCtx (c : Ctx) : Option Ctx := if ctxNonempty c then some c else none

/-- `_build_tool_response` (its `text` argument is unused in the source). -/
def build_tool_response (tool : String) (g : Guidance) (ctx : Ctx) : Answer :=
  let base := g.title ++ " helps with " ++ lowerStr g.description ++
    " Ask for more details or use " ++ g.exampleCall ++ "."
  let cl := context_line ctx
  { tool := some tool
    answer := if cl ≠ "" then cl ++ " " ++ base else base
    tips := g.usage
    exampleCall := some g.exampleCall
    suggested_actions := build_suggestions tool g
    confidence := toString (min 95 (50 + g.usage.length * 10)) ++ "%"
    context := wrapCtx ctx
    available_tools := none }

/-- `_build_ai_tool_response`. -/
def build_ai_tool_response (tool : String) (g : Guidance) (ai_answer : String) (ctx : Ctx) : Answer :=
  { tool := some tool
    answer := pyStrip ai_answer
    tips := g.usage
    exampleCall := some g.exampleCall
    suggested_actions := build_suggestions tool g
    confidence := "92%"
    context := wrapCtx ctx
    available_tools := none }

/-- `_build_ai_general_response`. -/
def build_ai_general_response (ai_answer : String) (ctx : Ctx) : Answer :=
  { tool := none
    answer := pyStrip ai_answer
    tips := []
    exampleCall := none
    suggested_actions := default_actions
    confidence := "90%"
    context := wrapCtx ctx
    available_tools := none }

/-- `_fallback_unavailable`. -/
def fallback_unavailable : Answer :=
  { tool := none
    answer := "Iâ€™m having trouble reaching the assistant right now. Please try again in a moment."
    tips := []
    exampleCall := none
    suggested_actions := default_actions
    confidence := "0%"
    context := none
    available_tools := some (sortStrings (toolGuidance.map (·.1))) }

/-! ### Cache (`_normalize_question`, `_cache_key`, `_cache_get`, `_cache_set`) -/

def normalize_question (question : String) : String := joinSpace (pySplit (lowerStr question))

def cache_key (question : String) (tool : Option String) (ctx : Ctx) : CacheKey :=
  (optVal tool, context_line ctx, normalize_question question)

def cache_get (cfg : Config) (st : AssistantState) (now : Int) (question : String)
    (tool : Option String) (ctx : Ctx) : Option String × AssistantState :=
  let k := cache_key question tool ctx
  match dictGet st.cache k with
  | none => (none, st)
  | some (a, ts) =>
    if now - ts > cfg.geminiCacheTtl then (none, { st with cache := dictPop st.cache k })
    else (some a, st)

/-- The map update performed by `_cache_set` (insert, then evict the oldest
entry when over capacity unless the oldest is the key just written). -/
def cache_set_map (cfg : Config) (m : Cache) (k : CacheKey) (answer : String) (now : Int) : Cache :=
  let m1 := dictSet m k (answer, now)
  if m1.length > cfg.geminiCacheMax then
    match dictOldest m1 with
    | none => m1
    | some e => if e.1 = k then m1 else dictPop m1 e.1
  else m1

def cache_set (cfg : Config) (st : AssistantState) (now : Int) (question : String)
    (tool : Option String) (ctx : Ctx) (answer : String) : AssistantState :=
  if answer = "" then st
  else { st with cache := cache_set_map cfg st.cache (cache_key question tool ctx) answer now }

/-! ### Provider calls -/

/-- Outcome of one `requests.post` attempt, as seen by the gateway:
`success text` is an HTTP 200 whose parsed body yields the (possibly empty)
extracted answer text; `failure code` a non-200 status; `exception` a
transport error, timeout, or a body on which parsing raises. -/
inductive AttemptResult where
  | success (text : String)
  | failure (code : Nat)
  | exception
  deriving DecidableEq, Repr

/-- `_is_gemini_active`. -/
def isGeminiActive (cfg : Config) : Bool := cfg.geminiEnabled && cfg.geminiKey

/-- `_is_openai_active` (includes `time.time() >= _openai_circuit_until`). -/
def isOpenaiActive (cfg : Config) (st : AssistantState) (now : Int) : Bool :=
  cfg.openaiEnabled && cfg.openaiKey && decide (st.openaiCircuitUntil ≤ now)

def gemini_open_circuit (cfg : Config) (now : Int) (st : AssistantState) : AssistantState :=
  { st with geminiCircuitUntil := now + cfg.geminiCircuitCooldown }

/-- The `if self._gemini_failures >= self.gemini_circuit_threshold: open` check. -/
def gemini_check_circuit (cfg : Config) (now : Int) (st : AssistantState) : AssistantState :=
  if cfg.geminiCircuitThreshold ≤ st.geminiFailures then gemini_open_circuit cfg now st else st

def openai_open_circuit (cfg : Config) (now : Int) (st : AssistantState) : AssistantState :=
  { st with openaiCircuitUntil := now + cfg.openaiCircuitCooldown }

def openai_check_circuit (cfg : Config) (now : Int) (st : AssistantState) : AssistantState :=
  if cfg.openaiCircuitThreshold ≤ st.openaiFailures then openai_open_circuit cfg now st else st

/-- The retry loop of `_call_gemini` (`for attempt in range(1, max_retries+1)`),
with `rem` remaining attempts; returns the answer (if any), the new state and
the number of network attempts consumed from `oracle` starting at index `n`. -/
def gemini_attempts (cfg : Config) (now : Int) (question : String) (tool : Option String)
    (ctx : Ctx) (oracle : Nat → AttemptResult) : Nat → Nat → AssistantState →
    Option String × AssistantState × Nat
  | _, 0, st => (none, gemini_check_circuit cfg now st, 0)
  | n, rem + 1, st =>
    match oracle n with
    | .success text =>
      if text = "" then (none, gemini_check_circuit cfg now st, 1)
      else
        let st1 := { st with geminiFailures := 0 }
        let ans := pyStrip text
        (some ans, cache_set cfg st1 now question tool ctx ans, 1)
    | .failure code =>
      if 500 ≤ code then
        let st1 := { st with geminiFailures := st.geminiFailures + 1 }
        if code = 503 then (none, gemini_check_circuit cfg now st1, 1)
        else
          let r := gemini_attempts cfg now question tool ctx oracle (n + 1) rem st1
          (r.1, r.2.1, r.2.2 + 1)
      else
        let r := gemini_attempts cfg now question tool ctx oracle (n + 1) rem st
        (r.1, r.2.1, r.2.2 + 1)
    | .exception =>
      (none, gemini_check_circuit cfg now { st with geminiFailures := st.geminiFailures + 1 }, 1)

/-- `_call_gemini`. -/
def call_gemini (cfg : Config) (st : AssistantState) (now : Int) (question : String)
    (tool : Option String) (ctx : Ctx) (oracle : Nat → AttemptResult) (n : Nat) :
    Option String × AssistantState × Nat :=
  if ¬ isGeminiActive cfg then (none, st, 0)
  else if now < st.geminiCircuitUntil then (none, st, 0)
  else if truthyS tool ∧ (lookupGuidance (optVal tool)).isNone then
    -- `_build_prompt` calls `_build_suggestions(tool)`, whose `self.tools[tool]`
    -- raises `KeyError` inside the `try:` before any request is made.
    (none, gemini_check_circuit cfg now { st with geminiFailures := st.geminiFailures + 1 }, 0)
  else gemini_attempts cfg now question tool ctx oracle n cfg.geminiMaxRetries st

/-- The retry loop of `_call_openai`; unlike Gemini, a 503 below the threshold
falls through to the backoff/retry, and the circuit opens on 503 only
together with the threshold test. -/
def openai_attempts (cfg : Config) (now : Int) (question : String) (tool : Option String)
    (ctx : Ctx) (oracle : Nat → AttemptResult) : Nat → Nat → AssistantState →
    Option String × AssistantState × Nat
  | _, 0, st => (none, openai_check_circuit cfg now st, 0)
  | n, rem + 1, st =>
    match oracle n with
    | .success text =>
      if text = "" then (none, openai_check_circuit cfg now st, 1)
      else
        let st1 := { st with openaiFailures := 0 }
        let ans := pyStrip text
        (some ans, cache_set cfg st1 now question tool ctx ans, 1)
    | .failure code =>
      if 500 ≤ code then
        let st1 := { st with openaiFailures := st.openaiFailures + 1 }
        if code = 503 ∧ cfg.openaiCircuitThreshold ≤ st1.openaiFailures then
          (none, openai_open_circuit cfg now st1, 1)
        else
          let r := openai_attempts cfg now question tool ctx oracle (n + 1) rem st1
          (r.1, r.2.1, r.2.2 + 1)
      else
        let r := openai_attempts cfg now question tool ctx oracle (n + 1) rem st
        (r.1, r.2.1, r.2.2 + 1)
    | .exception =>
      (none, openai_check_circuit cfg now { st with openaiFailures := st.openaiFailures + 1 }, 1)

/-- `_call_openai`. -/
def call_openai (cfg : Config) (st : AssistantState) (now : Int) (question : String)
    (tool : Option String) (ctx : Ctx) (oracle : Nat → AttemptResult) (n : Nat) :
    Option String × AssistantState × Nat :=
  if ¬ isOpenaiActive cfg st now then (none, st, 0)
  else if now < st.openaiCircuitUntil then (none, st, 0)
  else if truthyS tool ∧ (lookupGuidance (optVal tool)).isNone then
    (none, openai_check_circuit cfg now { st with openaiFailures := st.openaiFailures + 1 }, 0)
  else openai_attempts cfg now question tool ctx oracle n cfg.openaiMaxRetries st

/-! ### The orchestrator (`answer`) -/

/-- The `for attempt_tool in (selected_tool, None, selected_tool)` loop:
runs `call` on each variant until one yields a nonempty answer
(`if ai_response and ai_response.get("answer")`). -/
def variant_loop (call : AssistantState → Nat → Option String → Option String × AssistantState × Nat) :
    List (Option String) → AssistantState → Nat →
    Option (Option String × String) × AssistantState × Nat
  | [], st, _ => (none, st, 0)
  | v :: vs, st, n =>
    let r := call st n v
    match r.1 with
    | some a =>
      if a ≠ "" then (some (v, a), r.2.1, r.2.2)
      else
        let rr := variant_loop call vs r.2.1 (n + r.2.2)
        (rr.1, rr.2.1, r.2.2 + rr.2.2)
    | none =>
      let rr := variant_loop call vs r.2.1 (n + r.2.2)
      (rr.1, rr.2.1, r.2.2 + rr.2.2)

/-- Wraps a provider answer for variant `v` as the source does
(`_build_ai_tool_response` when the attempt tool is truthy, else
`_build_ai_general_response`); `self.tools[tool]` raises on an unknown tool. -/
def wrap_ai_answer (v : Option String) (a : String) (ctx : Ctx) : Except Unit Answer :=
  if truthyS v then
    match lookupGuidance (optVal v) with
    | none => .error ()
    | some g => .ok (build_ai_tool_response (optVal v) g a ctx)
  else .ok (build_ai_general_response a ctx)

/-- `_default_response`. -/
def default_response (cfg : Config) (st : AssistantState) (now : Int)
    (oracle : Nat → AttemptResult) (n : Nat) : Except Unit Answer × AssistantState × Nat :=
  if isGeminiActive cfg then
    let r := call_gemini cfg st now
      "Briefly introduce how you can help with IT, systems, and networking questions."
      none emptyCtx oracle n
    match r.1 with
    | some a =>
      if a ≠ "" then (.ok (build_ai_general_response a emptyCtx), r.2.1, r.2.2)
      else (.ok fallback_unavailable, r.2.1, r.2.2)
    | none => (.ok fallback_unavailable, r.2.1, r.2.2)
  else (.ok fallback_unavailable, st, 0)

/-- The `if cached_ai and cached_ai.get("answer")` truthiness test on a
cache-lookup result. -/
def hit_answer : Option String → Option String
  | some a => if a ≠ "" then some a else none
  | none => none

/-- The Gemini stage of `answer` (cache check, three prompt variants, then
`_fallback_unavailable`), entered when `_is_gemini_active()`. -/
def gemini_stage (cfg : Config) (st : AssistantState) (now : Int) (text : String)
    (selected : Option String) (ctx : Ctx) (oracle : Nat → AttemptResult) (n : Nat) :
    Except Unit Answer × AssistantState × Nat :=
  let cg := cache_get cfg st now text selected ctx
  match hit_answer cg.1 with
  | some a => (wrap_ai_answer selected a ctx, cg.2, 0)
  | none =>
    let lp := variant_loop (fun s m v => call_gemini cfg s now text v ctx oracle m)
      [selected, none, selected] cg.2 n
    match lp.1 with
    | some vb => (wrap_ai_answer vb.1 vb.2 ctx, lp.2.1, lp.2.2)
    | none => (.ok fallback_unavailable, lp.2.1, lp.2.2)

/-- The tail of `answer` after the OpenAI stage: Gemini if active, otherwise
deterministic guidance / default response. -/
def post_openai (cfg : Config) (st : AssistantState) (now : Int) (text : String)
    (selected : Option String) (ctx : Ctx) (oracle : Nat → AttemptResult) (n : Nat) :
    Except Unit Answer × AssistantState × Nat :=
  if isGeminiActive cfg then gemini_stage cfg st now text selected ctx oracle n
  else if truthyS selected then
    match lookupGuidance (optVal selected) with
    | none => (.error (), st, 0)
    | some g => (.ok (build_tool_response (optVal selected) g ctx), st, 0)
  else default_response cfg st now oracle n

/-- The OpenAI stage of `answer` (cache check, three prompt variants, then
fall through to the Gemini stage), entered when `_is_openai_active()`. -/
def openai_stage (cfg : Config) (st : AssistantState) (now : Int) (text : String)
    (selected : Option String) (ctx : Ctx) (oracle : Nat → AttemptResult) :
    Except Unit Answer × AssistantState × Nat :=
  let cg := cache_get cfg st now text selected ctx
  match hit_answer cg.1 with
  | some a => (wrap_ai_answer selected a ctx, cg.2, 0)
  | none =>
    let lp := variant_loop (fun s m v => call_openai cfg s now text v ctx oracle m)
      [selected, none, selected] cg.2 0
    match lp.1 with
    | some vb => (wrap_ai_answer vb.1 vb.2 ctx, lp.2.1, lp.2.2)
    | none =>
      let r := post_openai cfg lp.2.1 now text selected ctx oracle lp.2.2
      (r.1, r.2.1, lp.2.2 + r.2.2)

/-- `DashboardAssistant.answer`. Returns the response (or a propagated
exception), the final state, and the number of provider network attempts. -/
def answer (cfg : Config) (st : AssistantState) (now : Int) (question : String)
    (tool_hint : Option String) (ctx? : Option Ctx) (oracle : Nat → AttemptResult) :
    Except Unit Answer × AssistantState × Nat :=
  let text := pyStrip question
  if text = "" then default_response cfg st now oracle 0
  else
    let ctx := ctx?.getD emptyCtx
    let selected := pyOr (resolve_tool text tool_hint) ctx.tool
    if isOpenaiActive cfg st now then openai_stage cfg st now text selected ctx oracle
    else post_openai cfg st now text selected ctx oracle 0

deriving instance DecidableEq for Except

/-! ### Predicates used by the specification theorems -/

/-- The attempt outcome yields a usable (nonempty after `strip`) answer text. -/
def attemptUsable : AttemptResult → Bool
  | .success t => decide (pyStrip t ≠ "")
  | _ => false

/-- A client-side outcome: a 4xx status, or a 200 whose parsed body carries no
answer text. -/
def benignAttempt : AttemptResult → Bool
  | .success t => decide (t = "")
  | .failure c => decide (400 ≤ c ∧ c < 500)
  | .exception => false

/-- The attempt outcome is a client error status (4xx). -/
def clientErr : AttemptResult → Bool
  | .failure c => decide (400 ≤ c ∧ c < 500)
  | _ => false

/-- The tool name (when truthy) is a key of the catalog, so `self.tools[tool]`
cannot raise. -/
def toolOk (o : Option String) : Prop :=
  truthyS o = true → (lookupGuidance (optVal o)).isSome = true

/-- Well-formedness of the cache map: keys are distinct (always true of a
Python dict). -/
def cacheWF (m : Cache) : Prop := (m.map (·.1)).Nodup

instance instDecCacheWF (m : Cache) : Decidable (cacheWF m) := by
  unfold cacheWF
  infer_instance

/-- Every cached entry carries nonempty answer text. -/
def cacheNonempty (m : Cache) : Prop := ∀ p ∈ m, p.2.1 ≠ ""

instance instDecCacheNonempty (m : Cache) : Decidable (cacheNonempty m) := by
  unfold cacheNonempty
  infer_instance

/-! ### Concrete configurations, states and attempt oracles -/

/-- Gemini-only configuration with the source's default knobs. -/
def cfgG : Config :=
  { geminiEnabled := true, geminiKey := true, geminiMaxRetries := 1,
    geminiCircuitThreshold := 3, geminiCircuitCooldown := 60,
    geminiCacheTtl := 900, geminiCacheMax := 100,
    openaiEnabled := false, openaiKey := false, openaiMaxRetries := 1,
    openaiCircuitThreshold := 3, openaiCircuitCooldown := 60 }

/-- Gemini-only configuration with `GEMINI_MAX_RETRIES=2`. -/
def cfgG2 : Config := { cfgG with geminiMaxRetries := 2 }

/-- No provider configured. -/
def cfgNone : Config := { cfgG with geminiEnabled := false, geminiKey := false }

/-- OpenAI-only configuration with the source's default knobs. -/
def cfgO : Config :=
  { cfgG with
    geminiEnabled := false
    geminiKey := false
    openaiEnabled := true
    openaiKey := true }

/-- Gemini-only configuration with `GEMINI_CACHE_MAX=1`. -/
def cfgCache1 : Config := { cfgG with geminiCacheMax := 1 }

/-- Fresh state (all counters zero, cache empty), as after `__init__`. -/
def st0 : AssistantState :=
  { geminiFailures := 0, geminiCircuitUntil := 0, openaiFailures := 0,
    openaiCircuitUntil := 0, cache := [] }

def orc503 : Nat → AttemptResult := fun _ => .failure 503

def orc400 : Nat → AttemptResult := fun _ => .failure 400

def orcHi : Nat → AttemptResult := fun _ => .success "hello!"

/-- First attempt: 200 with an empty body; afterwards: usable answers. -/
def orcC8 : Nat → AttemptResult
  | 0 => .success ""
  | 1 => .success "X"
  | _ => .success "Y"

/-- State with one cached entry under the key of question `"q"` (no tool, no
context), created at time 0. -/
def stW : AssistantState := { st0 with cache := [(("", "", "q"), "x", 0)] }

/-- State with one cached entry created at time 10. -/
def stC4 : AssistantState := { st0 with cache := [(("", "", "old"), "a", 10)] }

/-- State with one cached entry created at time 0. -/
def stC4b : AssistantState := { st0 with cache := [(("", "", "old"), "a", 0)] }

/-- State after two consecutive Gemini failures with a (stale, elapsed)
`_gemini_circuit_until` of 5. -/
def stC5 : AssistantState := { st0 with geminiFailures := 2, geminiCircuitUntil := 5 }

/-- State with the Gemini breaker open until time 100 after 3 failures. -/
def stOpen : AssistantState := { st0 with geminiFailures := 3, geminiCircuitUntil := 100 }

/-- State after `provider_success_resets_failures` applied to `stC5`. -/
def stC5after : AssistantState :=
  { st0 with geminiCircuitUntil := 5, cache := [(("", "", "q"), "hello!", 10)] }

/-- State with a cached provider answer "X" for the WHOIS question. -/
def stHit : AssistantState := { st0 with cache := [(("whois", "", "what is whois"), "X", 0)] }

/-! ## Lemmas: dictionary operations -/

theorem dictGet_eq_none_of_not_mem (m : Cache) (k : CacheKey) (h : k ∉ m.map (·.1)) :
    dictGet m k = none := by
  induction m with
  | nil => rfl
  | cons p t ih =>
    simp only [List.map_cons, List.mem_cons] at h
    push_neg at h
    simp only [dictGet]
    rw [if_neg (fun he => h.1 he.symm)]
    exact ih h.2

theorem dictGet_dictPop_self (m : Cache) (k : CacheKey) (h : cacheWF m) :
    dictGet (dictPop m k) k = none := by
  induction m with
  | nil => rfl
  | cons p t ih =>
    simp only [cacheWF, List.map_cons, List.nodup_cons] at h
    simp only [dictPop]
    by_cases he : p.1 = k
    · rw [if_pos he]
      exact dictGet_eq_none_of_not_mem t k (he ▸ h.1)
    · rw [if_neg he]
      simp only [dictGet, if_neg he]
      exact ih h.2

theorem dictGet_dictPop_ne (m : Cache) (k k2 : CacheKey) (h : k2 ≠ k) :
    dictGet (dictPop m k2) k = dictGet m k := by
  induction m with
  | nil => rfl
  | cons p t ih =>
    simp only [dictPop]
    by_cases he : p.1 = k2
    · rw [if_pos he]
      have hpk : p.1 ≠ k := fun hk => h (he ▸ hk)
      simp only [dictGet, if_neg hpk]
    · rw [if_neg he]
      simp only [dictGet]
      by_cases hpk : p.1 = k
      · rw [if_pos hpk, if_pos hpk]
      · rw [if_neg hpk, if_neg hpk]
        exact ih

theorem dictGet_dictSet_self (m : Cache) (k : CacheKey) (v : String × Int) :
    dictGet (dictSet m k v) k = some v := by
  induction m with
  | nil => simp [dictSet, dictGet]
  | cons p t ih =>
    simp only [dictSet]
    by_cases he : p.1 = k
    · rw [if_pos he]
      simp [dictGet]
    · rw [if_neg he]
      simp only [dictGet, if_neg he]
      exact ih

theorem dictPop_length (m : Cache) (k : CacheKey) (h : k ∈ m.map (·.1)) :
    (dictPop m k).length + 1 = m.length := by
  induction m with
  | nil => simp at h
  | cons p t ih =>
    simp only [List.map_cons, List.mem_cons] at h
    simp only [dictPop]
    by_cases he : p.1 = k
    · rw [if_pos he]
      rfl
    · rw [if_neg he]
      rcases h with h1 | h2
      · exact absurd h1.symm he
      · simp only [List.length_cons, ← ih h2]

theorem dictOldest_eq_none (m : Cache) (h : dictOldest m = none) : m = [] := by
  cases m with
  | nil => rfl
  | cons p t =>
    exfalso
    cases ho : dictOldest t with
    | none =>
      simp only [dictOldest, ho] at h
      cases h
    | some q =>
      simp only [dictOldest, ho] at h
      by_cases hc : q.2.2 < p.2.2
      · rw [if_pos hc] at h; cases h
      · rw [if_neg hc] at h; cases h

theorem dictOldest_mem (m : Cache) (e : CacheKey × String × Int) (h : dictOldest m = some e) :
    e ∈ m := by
  induction m with
  | nil => cases h
  | cons p t ih =>
    cases ho : dictOldest t with
    | none =>
      simp only [dictOldest, ho] at h
      cases h
      exact .head _
    | some q =>
      simp only [dictOldest, ho] at h
      by_cases hc : q.2.2 < p.2.2
      · rw [if_pos hc] at h
        cases h
        exact .tail _ (ih ho)
      · rw [if_neg hc] at h
        cases h
        exact .head _

theorem dictOldest_min (m : Cache) (e : CacheKey × String × Int) (h : dictOldest m = some e) :
    ∀ p ∈ m, e.2.2 ≤ p.2.2 := by
  induction m generalizing e with
  | nil => cases h
  | cons p t ih =>
    cases ho : dictOldest t with
    | none =>
      have ht : t = [] := dictOldest_eq_none t ho
      subst ht
      simp only [dictOldest, ho] at h
      cases h
      intro x hx
      rcases List.mem_cons.1 hx with h1 | h1
      · subst h1
        exact le_refl _
      · cases h1
    | some q =>
      simp only [dictOldest, ho] at h
      intro x hx
      rcases List.mem_cons.1 hx with h1 | h1
      · subst h1
        by_cases hc : q.2.2 < x.2.2
        · rw [if_pos hc] at h
          injection h with h2
          subst h2
          exact le_of_lt hc
        · rw [if_neg hc] at h
          injection h with h2
          subst h2
          exact le_refl _
      · by_cases hc : q.2.2 < p.2.2
        · rw [if_pos hc] at h
          injection h with h2
          rw [← h2]
          exact ih q ho x h1
        · rw [if_neg hc] at h
          injection h with h2
          rw [← h2]
          exact le_trans (not_lt.1 hc) (ih q ho x h1)

/-! ## Lemmas: cache operations -/

theorem cache_set_map_get_self (cfg : Config) (m : Cache) (k : CacheKey) (a : String) (now : Int) :
    dictGet (cache_set_map cfg m k a now) k = some (a, now) := by
  simp only [cache_set_map]
  split
  · cases ho : dictOldest (dictSet m k (a, now)) with
    | none => simp only [ho]; exact dictGet_dictSet_self m k (a, now)
    | some e =>
      simp only [ho]
      by_cases he : e.1 = k
      · rw [if_pos he]
        exact dictGet_dictSet_self m k (a, now)
      · rw [if_neg he]
        rw [dictGet_dictPop_ne _ k e.1 he]
        exact dictGet_dictSet_self m k (a, now)
  · exact dictGet_dictSet_self m k (a, now)

theorem cache_set_fields (cfg : Config) (st : AssistantState) (now : Int) (q : String)
    (tool : Option String) (ctx : Ctx) (a : String) :
    (cache_set cfg st now q tool ctx a).geminiFailures = st.geminiFailures ∧
    (cache_set cfg st now q tool ctx a).geminiCircuitUntil = st.geminiCircuitUntil ∧
    (cache_set cfg st now q tool ctx a).openaiFailures = st.openaiFailures ∧
    (cache_set cfg st now q tool ctx a).openaiCircuitUntil = st.openaiCircuitUntil := by
  unfold cache_set
  split <;> simp

theorem cache_set_cache_of_ne (cfg : Config) (st : AssistantState) (now : Int) (q : String)
    (tool : Option String) (ctx : Ctx) (a : String) (ha : a ≠ "") :
    (cache_set cfg st now q tool ctx a).cache =
      cache_set_map cfg st.cache (cache_key q tool ctx) a now := by
  unfold cache_set
  rw [if_neg ha]

/-- C3: `_cache_get` expires lazily: when `now - created_at > ttl_seconds` the
lookup misses and the entry is removed on the spot, and a hit is only ever
returned while `now - created_at <= ttl_seconds`, with no background sweep. -/
theorem cache_get_lazy_expiration (cfg : Config) (st : AssistantState) (now : Int)
    (q : String) (tool : Option String) (ctx : Ctx) (a : String) (ts : Int)
    (hwf : cacheWF st.cache)
    (hget : dictGet st.cache (cache_key q tool ctx) = some (a, ts)) :
    (now - ts > cfg.geminiCacheTtl →
      (cache_get cfg st now q tool ctx).1 = none ∧
      dictGet (cache_get cfg st now q tool ctx).2.cache (cache_key q tool ctx) = none) ∧
    (∀ r, (cache_get cfg st now q tool ctx).1 = some r → now - ts ≤ cfg.geminiCacheTtl) := by
  unfold cache_get
  simp only [hget]
  constructor
  · intro h
    rw [if_pos h]
    exact ⟨rfl, dictGet_dictPop_self st.cache _ hwf⟩
  · intro r hr
    by_contra hc
    rw [if_pos (not_le.1 hc)] at hr
    cases hr

/-- C3 witness: entry created at 0 with TTL 900, looked up at 1000. -/
theorem cache_get_lazy_expiration_witness :
    (cache_get cfgG stW 1000 "q" none emptyCtx).1 = none ∧
    dictGet (cache_get cfgG stW 1000 "q" none emptyCtx).2.cache (cache_key "q" none emptyCtx) =
      none :=
  (cache_get_lazy_expiration cfgG stW 1000 "q" none emptyCtx "x" 0 (by decide)
    (by decide)).1 (by decide)

/-- C4 counterexample: with `GEMINI_CACHE_MAX=1` and an existing entry whose
creation timestamp (10) lies after the current clock reading (5) — as happens
whenever the wall clock steps backwards between two `_cache_set` calls — the
just-inserted entry is the oldest one, and `_cache_set` then evicts nothing:
the map ends with two entries (over capacity), and in particular the
"next-oldest" pre-existing entry survives, contradicting the claimed eviction
of exactly one entry. -/
theorem cache_set_over_capacity_no_eviction :
    (cache_set cfgCache1 stC4 5 "new" none emptyCtx "b").cache =
      [(("", "", "old"), "a", 10), (("", "", "new"), "b", 5)] ∧
    (cache_set cfgCache1 stC4 5 "new" none emptyCtx "b").cache.length = 2 ∧
    cfgCache1.geminiCacheMax = 1 ∧
    dictGet (cache_set cfgCache1 stC4 5 "new" none emptyCtx "b").cache ("", "", "old") =
      some ("a", 10) := by decide

/-- C4 (amended): a `_cache_set` that pushes the map over capacity evicts
exactly the entry with the smallest creation timestamp and preserves the
just-inserted entry — unless the oldest entry is the just-inserted one
itself, in which case nothing is evicted; over-capacity eviction never
removes more than one entry. -/
theorem cache_set_eviction_policy (cfg : Config) (st : AssistantState) (now : Int) (q : String)
    (tool : Option String) (ctx : Ctx) (a : String) (ha : a ≠ "") :
    dictGet (cache_set cfg st now q tool ctx a).cache (cache_key q tool ctx) = some (a, now) ∧
    (¬ (dictSet st.cache (cache_key q tool ctx) (a, now)).length > cfg.geminiCacheMax →
      (cache_set cfg st now q tool ctx a).cache =
        dictSet st.cache (cache_key q tool ctx) (a, now)) ∧
    ((dictSet st.cache (cache_key q tool ctx) (a, now)).length > cfg.geminiCacheMax →
      ∃ e, dictOldest (dictSet st.cache (cache_key q tool ctx) (a, now)) = some e ∧
        (∀ p ∈ dictSet st.cache (cache_key q tool ctx) (a, now), e.2.2 ≤ p.2.2) ∧
        (e.1 = cache_key q tool ctx →
          (cache_set cfg st now q tool ctx a).cache =
            dictSet st.cache (cache_key q tool ctx) (a, now)) ∧
        (e.1 ≠ cache_key q tool ctx →
          (cache_set cfg st now q tool ctx a).cache =
            dictPop (dictSet st.cache (cache_key q tool ctx) (a, now)) e.1 ∧
          (cache_set cfg st now q tool ctx a).cache.length + 1 =
            (dictSet st.cache (cache_key q tool ctx) (a, now)).length)) := by
  refine ⟨?_, ?_, ?_⟩
  · rw [cache_set_cache_of_ne cfg st now q tool ctx a ha]
    exact cache_set_map_get_self cfg st.cache (cache_key q tool ctx) a now
  · intro hlen
    rw [cache_set_cache_of_ne cfg st now q tool ctx a ha]
    simp only [cache_set_map]
    rw [if_neg hlen]
  · intro hlen
    cases ho : dictOldest (dictSet st.cache (cache_key q tool ctx) (a, now)) with
    | none =>
      exfalso
      have := dictOldest_eq_none _ ho
      rw [this] at hlen
      simp at hlen
    | some e =>
      refine ⟨e, rfl, dictOldest_min _ e ho, ?_, ?_⟩
      · intro he
        rw [cache_set_cache_of_ne cfg st now q tool ctx a ha]
        simp only [cache_set_map]
        rw [if_pos hlen]
        simp only [ho]
        rw [if_pos he]
      · intro he
        rw [cache_set_cache_of_ne cfg st now q tool ctx a ha]
        simp only [cache_set_map]
        rw [if_pos hlen]
        simp only [ho]
        rw [if_neg he]
        refine ⟨rfl, ?_⟩
        exact dictPop_length _ e.1
          (List.mem_map_of_mem (·.1) (dictOldest_mem _ e ho))

/-- C4 witness: over-capacity insertion at time 5 evicts the older (time 0)
entry and keeps the new one. -/
theorem cache_set_eviction_policy_witness :
    dictGet (cache_set cfgCache1 stC4b 5 "new" none emptyCtx "b").cache
      (cache_key "new" none emptyCtx) = some ("b", 5) ∧
    (cache_set cfgCache1 stC4b 5 "new" none emptyCtx "b").cache =
      dictPop (dictSet stC4b.cache (cache_key "new" none emptyCtx) ("b", 5)) ("", "", "old") ∧
    (cache_set cfgCache1 stC4b 5 "new" none emptyCtx "b").cache.length + 1 =
      (dictSet stC4b.cache (cache_key "new" none emptyCtx) ("b", 5)).length := by
  have h := cache_set_eviction_policy cfgCache1 stC4b 5 "new" none emptyCtx "b" (by decide)
  refine ⟨h.1, ?_⟩
  obtain ⟨e, he, -, -, hne⟩ := h.2.2 (by decide)
  have he1 : e = (("", "", "old"), "a", (0 : Int)) := by
    rw [show dictOldest (dictSet stC4b.cache (cache_key "new" none emptyCtx) ("b", 5)) =
      some ((("", "", "old"), "a", (0 : Int))) from by decide] at he
    injection he with h2
    exact h2.symm
  subst he1
  exact hne (by decide)

/-! ## Lemmas: provider retry loops -/

theorem gemini_attempts_success (cfg : Config) (now : Int) (q : String) (tool : Option String)
    (ctx : Ctx) (oracle : Nat → AttemptResult) :
    ∀ rem n st a st2 used,
      gemini_attempts cfg now q tool ctx oracle n rem st = (some a, st2, used) →
      st2.geminiFailures = 0 ∧ st2.geminiCircuitUntil = st.geminiCircuitUntil ∧
      st2.openaiFailures = st.openaiFailures ∧ st2.openaiCircuitUntil = st.openaiCircuitUntil ∧
      (a ≠ "" → dictGet st2.cache (cache_key q tool ctx) = some (a, now)) := by
  intro rem
  induction rem with
  | zero =>
    intro n st a st2 used h
    simp only [gemini_attempts, Prod.mk.injEq] at h
    exact Option.noConfusion h.1
  | succ r ih =>
    intro n st a st2 used h
    simp only [gemini_attempts] at h
    split at h
    · -- success t
      split at h
      · simp only [Prod.mk.injEq] at h
        exact Option.noConfusion h.1
      · rename_i t heqx htx
        simp only [Prod.mk.injEq] at h
        obtain ⟨h1, h2, -⟩ := h
        injection h1 with h1
        subst h2
        have hf := cache_set_fields cfg { st with geminiFailures := 0 } now q tool ctx
          (pyStrip t)
        refine ⟨hf.1, hf.2.1, hf.2.2.1, hf.2.2.2, ?_⟩
        intro ha
        rw [← h1]
        rw [cache_set_cache_of_ne _ _ _ _ _ _ _ (h1 ▸ ha)]
        exact cache_set_map_get_self _ _ _ _ _
    · -- failure code
      split at h
      · -- 500 ≤ code
        split at h
        · -- 503
          simp only [Prod.mk.injEq] at h
          exact Option.noConfusion h.1
        · -- other 5xx: recursive
          simp only [Prod.mk.injEq] at h
          obtain ⟨h1, h2, -⟩ := h
          have heq : gemini_attempts cfg now q tool ctx oracle (n + 1) r
              { st with geminiFailures := st.geminiFailures + 1 } =
              (some a, st2, (gemini_attempts cfg now q tool ctx oracle (n + 1) r
                { st with geminiFailures := st.geminiFailures + 1 }).2.2) := by
            rw [← h1, ← h2]
          have hr := ih (n + 1) { st with geminiFailures := st.geminiFailures + 1 } a st2 _ heq
          exact ⟨hr.1, hr.2.1, hr.2.2.1, hr.2.2.2.1, hr.2.2.2.2⟩
      · -- < 500: recursive, state unchanged
        simp only [Prod.mk.injEq] at h
        obtain ⟨h1, h2, -⟩ := h
        have heq : gemini_attempts cfg now q tool ctx oracle (n + 1) r st =
            (some a, st2, (gemini_attempts cfg now q tool ctx oracle (n + 1) r st).2.2) := by
          rw [← h1, ← h2]
        exact ih (n + 1) st a st2 _ heq
    · -- exception
      simp only [Prod.mk.injEq] at h
      exact Option.noConfusion h.1

theorem openai_attempts_success (cfg : Config) (now : Int) (q : String) (tool : Option String)
    (ctx : Ctx) (oracle : Nat → AttemptResult) :
    ∀ rem n st a st2 used,
      openai_attempts cfg now q tool ctx oracle n rem st = (some a, st2, used) →
      st2.openaiFailures = 0 ∧ st2.openaiCircuitUntil = st.openaiCircuitUntil ∧
      st2.geminiFailures = st.geminiFailures ∧ st2.geminiCircuitUntil = st.geminiCircuitUntil ∧
      (a ≠ "" → dictGet st2.cache (cache_key q tool ctx) = some (a, now)) := by
  intro rem
  induction rem with
  | zero =>
    intro n st a st2 used h
    simp only [openai_attempts, Prod.mk.injEq] at h
    exact Option.noConfusion h.1
  | succ r ih =>
    intro n st a st2 used h
    simp only [openai_attempts] at h
    split at h
    · split at h
      · simp only [Prod.mk.injEq] at h
        exact Option.noConfusion h.1
      · rename_i t heqx htx
        simp only [Prod.mk.injEq] at h
        obtain ⟨h1, h2, -⟩ := h
        injection h1 with h1
        subst h2
        have hf := cache_set_fields cfg { st with openaiFailures := 0 } now q tool ctx
          (pyStrip t)
        refine ⟨hf.2.2.1, hf.2.2.2, hf.1, hf.2.1, ?_⟩
        intro ha
        rw [← h1]
        rw [cache_set_cache_of_ne _ _ _ _ _ _ _ (h1 ▸ ha)]
        exact cache_set_map_get_self _ _ _ _ _
    · split at h
      · split at h
        · simp only [Prod.mk.injEq] at h
          exact Option.noConfusion h.1
        · simp only [Prod.mk.injEq] at h
          obtain ⟨h1, h2, -⟩ := h
          have heq : openai_attempts cfg now q tool ctx oracle (n + 1) r
              { st with openaiFailures := st.openaiFailures + 1 } =
              (some a, st2, (openai_attempts cfg now q tool ctx oracle (n + 1) r
                { st with openaiFailures := st.openaiFailures + 1 }).2.2) := by
            rw [← h1, ← h2]
          have hr := ih (n + 1) { st with openaiFailures := st.openaiFailures + 1 } a st2 _ heq
          exact ⟨hr.1, hr.2.1, hr.2.2.1, hr.2.2.2.1, hr.2.2.2.2⟩
      · simp only [Prod.mk.injEq] at h
        obtain ⟨h1, h2, -⟩ := h
        have heq : openai_attempts cfg now q tool ctx oracle (n + 1) r st =
            (some a, st2, (openai_attempts cfg now q tool ctx oracle (n + 1) r st).2.2) := by
          rw [← h1, ← h2]
        exact ih (n + 1) st a st2 _ heq
    · simp only [Prod.mk.injEq] at h
      exact Option.noConfusion h.1

/-- C5 counterexample: after two prior failures with a stale
`_gemini_circuit_until = 5`, a successful call at time 10 resets the failure
counter but leaves `open_until` at 5 instead of clearing it (the cleared
value of `__init__` is 0). -/
theorem provider_success_keeps_open_until :
    (call_gemini cfgG stC5 10 "q" none emptyCtx orcHi 0).1 = some "hello!" ∧
    (call_gemini cfgG stC5 10 "q" none emptyCtx orcHi 0).2.1.geminiFailures = 0 ∧
    (call_gemini cfgG stC5 10 "q" none emptyCtx orcHi 0).2.1.geminiCircuitUntil = 5 ∧
    stC5.geminiCircuitUntil = 5 ∧ (5 : Int) ≠ 0 := by decide

/-- C5 (amended): for either provider, a call that returns an answer resets
that provider's consecutive-failure counter to 0 regardless of its prior
value; `open_until` is left unchanged rather than cleared (it necessarily
already lies at or before `now`, since an open circuit short-circuits the
call). -/
theorem provider_success_resets_failures (cfg : Config) (st : AssistantState) (now : Int)
    (q : String) (tool : Option String) (ctx : Ctx) (oracle : Nat → AttemptResult) (n : Nat)
    (a : String) (st2 : AssistantState) (used : Nat) :
    (call_gemini cfg st now q tool ctx oracle n = (some a, st2, used) →
      st2.geminiFailures = 0 ∧ st2.geminiCircuitUntil = st.geminiCircuitUntil ∧
      st.geminiCircuitUntil ≤ now) ∧
    (call_openai cfg st now q tool ctx oracle n = (some a, st2, used) →
      st2.openaiFailures = 0 ∧ st2.openaiCircuitUntil = st.openaiCircuitUntil ∧
      st.openaiCircuitUntil ≤ now) := by
  constructor
  · intro h
    unfold call_gemini at h
    split at h
    · simp only [Prod.mk.injEq] at h
      exact Option.noConfusion h.1
    · split at h
      · simp only [Prod.mk.injEq] at h
        exact Option.noConfusion h.1
      · rename_i hact hcirc
        split at h
        · simp only [Prod.mk.injEq] at h
          exact Option.noConfusion h.1
        · have hs := gemini_attempts_success cfg now q tool ctx oracle _ n st a st2 used h
          exact ⟨hs.1, hs.2.1, not_lt.1 hcirc⟩
  · intro h
    unfold call_openai at h
    split at h
    · simp only [Prod.mk.injEq] at h
      exact Option.noConfusion h.1
    · split at h
      · simp only [Prod.mk.injEq] at h
        exact Option.noConfusion h.1
      · rename_i hact hcirc
        split at h
        · simp only [Prod.mk.injEq] at h
          exact Option.noConfusion h.1
        · have hs := openai_attempts_success cfg now q tool ctx oracle _ n st a st2 used h
          refine ⟨hs.1, hs.2.1, ?_⟩
          unfold isOpenaiActive at hact
          simp only [not_not, Bool.and_eq_true, decide_eq_true_eq] at hact
          exact hact.2

/-- C5 witness: concrete success call on `stC5` (two prior failures). -/
theorem provider_success_resets_failures_witness :
    stC5after.geminiFailures = 0 ∧ stC5after.geminiCircuitUntil = stC5.geminiCircuitUntil ∧
    stC5.geminiCircuitUntil ≤ 10 :=
  (provider_success_resets_failures cfgG stC5 10 "q" none emptyCtx orcHi 0 "hello!"
    stC5after 1).1 (by decide)

theorem gemini_attempts_benign (cfg : Config) (now : Int) (q : String) (tool : Option String)
    (ctx : Ctx) (oracle : Nat → AttemptResult) (h : ∀ i, benignAttempt (oracle i) = true) :
    ∀ rem n st, (gemini_attempts cfg now q tool ctx oracle n rem st).1 = none ∧
      (gemini_attempts cfg now q tool ctx oracle n rem st).2.1 =
        gemini_check_circuit cfg now st ∧
      (gemini_attempts cfg now q tool ctx oracle n rem st).2.2 ≤ rem := by
  intro rem
  induction rem with
  | zero => exact fun n st => ⟨rfl, rfl, le_refl 0⟩
  | succ r ih =>
    intro n st
    have hb := h n
    cases horc : oracle n with
    | success t =>
      rw [horc] at hb
      simp only [benignAttempt, decide_eq_true_eq] at hb
      subst hb
      simp only [gemini_attempts, horc]
      refine ⟨by simp, by simp, by simp⟩
    | failure code =>
      rw [horc] at hb
      simp only [benignAttempt, decide_eq_true_eq] at hb
      have h5 : ¬ 500 ≤ code := by omega
      simp only [gemini_attempts, horc, if_neg h5]
      have hr := ih (n + 1) st
      exact ⟨hr.1, hr.2.1, by have := hr.2.2 ; omega⟩
    | exception =>
      rw [horc] at hb
      simp only [benignAttempt] at hb
      exact absurd hb (by decide)

theorem openai_attempts_benign (cfg : Config) (now : Int) (q : String) (tool : Option String)
    (ctx : Ctx) (oracle : Nat → AttemptResult) (h : ∀ i, benignAttempt (oracle i) = true) :
    ∀ rem n st, (openai_attempts cfg now q tool ctx oracle n rem st).1 = none ∧
      (openai_attempts cfg now q tool ctx oracle n rem st).2.1 =
        openai_check_circuit cfg now st ∧
      (openai_attempts cfg now q tool ctx oracle n rem st).2.2 ≤ rem := by
  intro rem
  induction rem with
  | zero => exact fun n st => ⟨rfl, rfl, le_refl 0⟩
  | succ r ih =>
    intro n st
    have hb := h n
    cases horc : oracle n with
    | success t =>
      rw [horc] at hb
      simp only [benignAttempt, decide_eq_true_eq] at hb
      subst hb
      simp only [openai_attempts, horc]
      refine ⟨by simp, by simp, by simp⟩
    | failure code =>
      rw [horc] at hb
      simp only [benignAttempt, decide_eq_true_eq] at hb
      have h5 : ¬ 500 ≤ code := by omega
      simp only [openai_attempts, horc, if_neg h5]
      have hr := ih (n + 1) st
      exact ⟨hr.1, hr.2.1, by have := hr.2.2 ; omega⟩
    | exception =>
      rw [horc] at hb
      simp only [benignAttempt] at hb
      exact absurd hb (by decide)

theorem gemini_attempts_all4xx (cfg : Config) (now : Int) (q : String) (tool : Option String)
    (ctx : Ctx) (oracle : Nat → AttemptResult) (h : ∀ i, clientErr (oracle i) = true) :
    ∀ rem n st, (gemini_attempts cfg now q tool ctx oracle n rem st).2.2 = rem := by
  intro rem
  induction rem with
  | zero => exact fun n st => rfl
  | succ r ih =>
    intro n st
    have hb := h n
    cases horc : oracle n with
    | success t =>
      rw [horc] at hb
      simp only [clientErr] at hb
      exact absurd hb (by decide)
    | failure code =>
      rw [horc] at hb
      simp only [clientErr, decide_eq_true_eq] at hb
      have h5 : ¬ 500 ≤ code := by omega
      simp only [gemini_attempts, horc, if_neg h5]
      rw [ih (n + 1) st]
    | exception =>
      rw [horc] at hb
      simp only [clientErr] at hb
      exact absurd hb (by decide)

theorem gemini_check_circuit_failures (cfg : Config) (now : Int) (st : AssistantState) :
    (gemini_check_circuit cfg now st).geminiFailures = st.geminiFailures := by
  unfold gemini_check_circuit gemini_open_circuit
  split <;> rfl

theorem openai_check_circuit_failures (cfg : Config) (now : Int) (st : AssistantState) :
    (openai_check_circuit cfg now st).openaiFailures = st.openaiFailures := by
  unfold openai_check_circuit openai_open_circuit
  split <;> rfl

theorem gemini_check_circuit_of_lt (cfg : Config) (now : Int) (st : AssistantState)
    (h : st.geminiFailures < cfg.geminiCircuitThreshold) :
    gemini_check_circuit cfg now st = st := by
  unfold gemini_check_circuit
  rw [if_neg (not_le.2 h)]

theorem openai_check_circuit_of_lt (cfg : Config) (now : Int) (st : AssistantState)
    (h : st.openaiFailures < cfg.openaiCircuitThreshold) :
    openai_check_circuit cfg now st = st := by
  unfold openai_check_circuit
  rw [if_neg (not_le.2 h)]

/-- C6 counterexample: with `GEMINI_MAX_RETRIES=2`, a 400 response IS retried:
a single `_call_gemini` invocation performs two network attempts before
giving up (the claim says a 4xx call is not retried).  The failure counter
and the whole breaker state are indeed left unchanged. -/
theorem client_error_is_retried :
    (call_gemini cfgG2 st0 0 "q" none emptyCtx orc400 0).2.2 = 2 ∧
    cfgG2.geminiMaxRetries = 2 ∧
    (call_gemini cfgG2 st0 0 "q" none emptyCtx orc400 0).2.1 = st0 ∧
    (call_gemini cfgG2 st0 0 "q" none emptyCtx orc400 0).1 = none := by decide

/-- C6 (amended): a provider call whose attempts all end in 4xx statuses or
empty 200 bodies produces no answer, never increments that provider's
consecutive-failure counter, and (as long as the counter had not already
reached the threshold beforehand) leaves the breaker state untouched; an
empty 200 body stops the loop after one attempt, while a 4xx is retried up
to `max_retries` attempts. -/
theorem client_errors_not_circuit_failures (cfg : Config) (st : AssistantState) (now : Int)
    (q : String) (tool : Option String) (ctx : Ctx) (oracle : Nat → AttemptResult) (n : Nat)
    (hb : ∀ i, benignAttempt (oracle i) = true) (htool : toolOk tool) :
    ((call_gemini cfg st now q tool ctx oracle n).1 = none ∧
     (call_gemini cfg st now q tool ctx oracle n).2.1.geminiFailures = st.geminiFailures ∧
     (st.geminiFailures < cfg.geminiCircuitThreshold →
       (call_gemini cfg st now q tool ctx oracle n).2.1 = st) ∧
     (call_gemini cfg st now q tool ctx oracle n).2.2 ≤ cfg.geminiMaxRetries ∧
     ((∀ i, clientErr (oracle i) = true) → isGeminiActive cfg = true →
       ¬ now < st.geminiCircuitUntil →
       (call_gemini cfg st now q tool ctx oracle n).2.2 = cfg.geminiMaxRetries) ∧
     (oracle n = .success "" → isGeminiActive cfg = true → ¬ now < st.geminiCircuitUntil →
       1 ≤ cfg.geminiMaxRetries → (call_gemini cfg st now q tool ctx oracle n).2.2 = 1)) ∧
    ((call_openai cfg st now q tool ctx oracle n).1 = none ∧
     (call_openai cfg st now q tool ctx oracle n).2.1.openaiFailures = st.openaiFailures ∧
     (st.openaiFailures < cfg.openaiCircuitThreshold →
       (call_openai cfg st now q tool ctx oracle n).2.1 = st) ∧
     (call_openai cfg st now q tool ctx oracle n).2.2 ≤ cfg.openaiMaxRetries) := by
  constructor
  · unfold call_gemini
    split
    · exact ⟨rfl, rfl, fun _ => rfl, Nat.zero_le _,
        fun _ hact _ => absurd hact (by assumption),
        fun _ hact _ _ => absurd hact (by assumption)⟩
    · split
      · rename_i hact hcirc
        exact ⟨rfl, rfl, fun _ => rfl, Nat.zero_le _,
          fun _ _ hc => absurd hcirc hc,
          fun _ _ hc _ => absurd hcirc hc⟩
      · split
        · rename_i hact hcirc hkey
          exfalso
          obtain ⟨ht, hn⟩ := hkey
          cases hl : lookupGuidance (optVal tool) with
          | none =>
            have := htool ht
            rw [hl] at this
            simp at this
          | some g =>
            rw [hl] at hn
            simp at hn
        · rename_i hact hcirc hkey
          have hr := gemini_attempts_benign cfg now q tool ctx oracle hb
            cfg.geminiMaxRetries n st
          refine ⟨hr.1, ?_, ?_, hr.2.2, ?_, ?_⟩
          · rw [hr.2.1]
            exact gemini_check_circuit_failures cfg now st
          · intro hlt
            rw [hr.2.1]
            exact gemini_check_circuit_of_lt cfg now st hlt
          · intro h4 _ _
            exact gemini_attempts_all4xx cfg now q tool ctx oracle h4 cfg.geminiMaxRetries n st
          · intro hempty _ _ hmr
            obtain ⟨r, hrr⟩ : ∃ r, cfg.geminiMaxRetries = r + 1 :=
              ⟨cfg.geminiMaxRetries - 1, by omega⟩
            rw [hrr]
            simp [gemini_attempts, hempty]
  · unfold call_openai
    split
    · exact ⟨rfl, rfl, fun _ => rfl, Nat.zero_le _⟩
    · split
      · exact ⟨rfl, rfl, fun _ => rfl, Nat.zero_le _⟩
      · split
        · rename_i hact hcirc hkey
          exfalso
          obtain ⟨ht, hn⟩ := hkey
          cases hl : lookupGuidance (optVal tool) with
          | none =>
            have := htool ht
            rw [hl] at this
            simp at this
          | some g =>
            rw [hl] at hn
            simp at hn
        · have hr := openai_attempts_benign cfg now q tool ctx oracle hb
            cfg.openaiMaxRetries n st
          refine ⟨hr.1, ?_, ?_, hr.2.2⟩
          · rw [hr.2.1]
            exact openai_check_circuit_failures cfg now st
          · intro hlt
            rw [hr.2.1]
            exact openai_check_circuit_of_lt cfg now st hlt

/-- C6 witness: 400 responses under the default configuration (threshold 3,
one retry): no answer, counter untouched, state untouched, one attempt. -/
theorem client_errors_not_circuit_failures_witness :
    (call_gemini cfgG st0 0 "q" none emptyCtx orc400 0).1 = none ∧
    (call_gemini cfgG st0 0 "q" none emptyCtx orc400 0).2.1.geminiFailures = st0.geminiFailures ∧
    (call_gemini cfgG st0 0 "q" none emptyCtx orc400 0).2.1 = st0 :=
  have h := client_errors_not_circuit_failures cfgG st0 0 "q" none emptyCtx orc400 0
    (fun i => rfl) (fun ht => absurd ht (by decide))
  ⟨h.1.1, h.1.2.1, h.1.2.2.1 (by decide)⟩

theorem gemini_check_circuit_until_of_ge (cfg : Config) (now : Int) (st : AssistantState)
    (h : cfg.geminiCircuitThreshold ≤ st.geminiFailures) :
    (gemini_check_circuit cfg now st).geminiCircuitUntil = now + cfg.geminiCircuitCooldown := by
  unfold gemini_check_circuit
  rw [if_pos h]
  rfl

theorem openai_check_circuit_until_of_ge (cfg : Config) (now : Int) (st : AssistantState)
    (h : cfg.openaiCircuitThreshold ≤ st.openaiFailures) :
    (openai_check_circuit cfg now st).openaiCircuitUntil = now + cfg.openaiCircuitCooldown := by
  unfold openai_check_circuit
  rw [if_pos h]
  rfl

theorem gemini_attempts_circuit (cfg : Config) (now : Int) (q : String) (tool : Option String)
    (ctx : Ctx) (oracle : Nat → AttemptResult) :
    ∀ rem n st, (gemini_attempts cfg now q tool ctx oracle n rem st).1 = none →
      cfg.geminiCircuitThreshold ≤
        (gemini_attempts cfg now q tool ctx oracle n rem st).2.1.geminiFailures →
      (gemini_attempts cfg now q tool ctx oracle n rem st).2.1.geminiCircuitUntil =
        now + cfg.geminiCircuitCooldown := by
  intro rem
  induction rem with
  | zero =>
    intro n st h1 h2
    simp only [gemini_attempts] at h1 h2 ⊢
    rw [gemini_check_circuit_failures] at h2
    exact gemini_check_circuit_until_of_ge cfg now st h2
  | succ r ih =>
    intro n st h1 h2
    cases horc : oracle n with
    | success t =>
      simp only [gemini_attempts, horc] at h1 h2 ⊢
      by_cases ht : t = ""
      · simp only [if_pos ht] at h2 ⊢
        rw [gemini_check_circuit_failures] at h2
        exact gemini_check_circuit_until_of_ge cfg now st h2
      · rw [if_neg ht] at h1
        simp at h1
    | failure code =>
      simp only [gemini_attempts, horc] at h1 h2 ⊢
      by_cases h5 : 500 ≤ code
      · rw [if_pos h5] at h1 h2 ⊢
        by_cases h503 : code = 503
        · simp only [if_pos h503] at h2 ⊢
          rw [gemini_check_circuit_failures] at h2
          exact gemini_check_circuit_until_of_ge cfg now _ h2
        · simp only [if_neg h503] at h1 h2 ⊢
          exact ih (n + 1) _ h1 h2
      · rw [if_neg h5] at h1 h2 ⊢
        exact ih (n + 1) st h1 h2
    | exception =>
      simp only [gemini_attempts, horc] at h2 ⊢
      rw [gemini_check_circuit_failures] at h2
      exact gemini_check_circuit_until_of_ge cfg now _ h2

theorem openai_attempts_circuit (cfg : Config) (now : Int) (q : String) (tool : Option String)
    (ctx : Ctx) (oracle : Nat → AttemptResult) :
    ∀ rem n st, (openai_attempts cfg now q tool ctx oracle n rem st).1 = none →
      cfg.openaiCircuitThreshold ≤
        (openai_attempts cfg now q tool ctx oracle n rem st).2.1.openaiFailures →
      (openai_attempts cfg now q tool ctx oracle n rem st).2.1.openaiCircuitUntil =
        now + cfg.openaiCircuitCooldown := by
  intro rem
  induction rem with
  | zero =>
    intro n st h1 h2
    simp only [openai_attempts] at h1 h2 ⊢
    rw [openai_check_circuit_failures] at h2
    exact openai_check_circuit_until_of_ge cfg now st h2
  | succ r ih =>
    intro n st h1 h2
    cases horc : oracle n with
    | success t =>
      simp only [openai_attempts, horc] at h1 h2 ⊢
      by_cases ht : t = ""
      · simp only [if_pos ht] at h2 ⊢
        rw [openai_check_circuit_failures] at h2
        exact openai_check_circuit_until_of_ge cfg now st h2
      · rw [if_neg ht] at h1
        simp at h1
    | failure code =>
      simp only [openai_attempts, horc] at h1 h2 ⊢
      by_cases h5 : 500 ≤ code
      · rw [if_pos h5] at h1 h2 ⊢
        by_cases h503 : code = 503 ∧ cfg.openaiCircuitThreshold ≤ st.openaiFailures + 1
        · simp only [if_pos h503] at h2 ⊢
          rfl
        · simp only [if_neg h503] at h1 h2 ⊢
          exact ih (n + 1) _ h1 h2
      · rw [if_neg h5] at h1 h2 ⊢
        exact ih (n + 1) st h1 h2
    | exception =>
      simp only [openai_attempts, horc] at h2 ⊢
      rw [openai_check_circuit_failures] at h2
      exact openai_check_circuit_until_of_ge cfg now _ h2

theorem gemini_attempts_consumed_pos (cfg : Config) (now : Int) (q : String)
    (tool : Option String) (ctx : Ctx) (oracle : Nat → AttemptResult) (r n : Nat)
    (st : AssistantState) :
    1 ≤ (gemini_attempts cfg now q tool ctx oracle n (r + 1) st).2.2 := by
  simp only [gemini_attempts]
  cases horc : oracle n with
  | success t =>
    by_cases ht : t = "" <;> simp [ht]
  | failure code =>
    dsimp only
    by_cases h5 : 500 ≤ code
    · rw [if_pos h5]
      by_cases h503 : code = 503
      · simp [h503]
      · simp [h503]
    · simp [h5]
  | exception => simp

theorem openai_attempts_consumed_pos (cfg : Config) (now : Int) (q : String)
    (tool : Option String) (ctx : Ctx) (oracle : Nat → AttemptResult) (r n : Nat)
    (st : AssistantState) :
    1 ≤ (openai_attempts cfg now q tool ctx oracle n (r + 1) st).2.2 := by
  simp only [openai_attempts]
  cases horc : oracle n with
  | success t =>
    by_cases ht : t = "" <;> simp [ht]
  | failure code =>
    dsimp only
    by_cases h5 : 500 ≤ code
    · rw [if_pos h5]
      by_cases h503 : code = 503 ∧ cfg.openaiCircuitThreshold ≤ st.openaiFailures + 1
      · simp [h503]
      · simp [if_neg h503]
    · simp [h5]
  | exception => simp

/-- C7: circuit breaker lifecycle, per provider call.  While
`now < open_until`, a call is skipped immediately: no network attempt, state
untouched.  A non-skipped call that produces no answer and ends with the
failure counter at or above the threshold leaves the circuit open with
`open_until = now + cooldown`.  Once the cooldown has elapsed, the next call
really probes the network (at least one attempt) — and by the previous two
parts, if that probe fails the circuit re-opens for a full cooldown, so
exactly one call per cooldown window reaches the network. -/
theorem circuit_breaker_lifecycle (cfg : Config) (st : AssistantState) (now : Int) (q : String)
    (tool : Option String) (ctx : Ctx) (oracle : Nat → AttemptResult) (n : Nat) :
    (now < st.geminiCircuitUntil →
      call_gemini cfg st now q tool ctx oracle n = (none, st, 0)) ∧
    (isGeminiActive cfg = true → ¬ now < st.geminiCircuitUntil →
      (call_gemini cfg st now q tool ctx oracle n).1 = none →
      cfg.geminiCircuitThreshold ≤
        (call_gemini cfg st now q tool ctx oracle n).2.1.geminiFailures →
      (call_gemini cfg st now q tool ctx oracle n).2.1.geminiCircuitUntil =
        now + cfg.geminiCircuitCooldown) ∧
    (isGeminiActive cfg = true → ¬ now < st.geminiCircuitUntil → toolOk tool →
      1 ≤ cfg.geminiMaxRetries → 1 ≤ (call_gemini cfg st now q tool ctx oracle n).2.2) ∧
    (cfg.openaiEnabled = true → cfg.openaiKey = true → now < st.openaiCircuitUntil →
      call_openai cfg st now q tool ctx oracle n = (none, st, 0)) ∧
    (isOpenaiActive cfg st now = true →
      (call_openai cfg st now q tool ctx oracle n).1 = none →
      cfg.openaiCircuitThreshold ≤
        (call_openai cfg st now q tool ctx oracle n).2.1.openaiFailures →
      (call_openai cfg st now q tool ctx oracle n).2.1.openaiCircuitUntil =
        now + cfg.openaiCircuitCooldown) ∧
    (isOpenaiActive cfg st now = true → toolOk tool → 1 ≤ cfg.openaiMaxRetries →
      1 ≤ (call_openai cfg st now q tool ctx oracle n).2.2) := by
  refine ⟨?_, ?_, ?_, ?_, ?_, ?_⟩
  · intro h
    unfold call_gemini
    split
    · rfl
    · simp [h]
  · intro hact hcirc h1 h2
    unfold call_gemini at h1 h2 ⊢
    rw [if_neg (fun hc => hc hact), if_neg hcirc] at h1 h2 ⊢
    by_cases hkey : truthyS tool = true ∧ (lookupGuidance (optVal tool)).isNone = true
    · rw [if_pos hkey] at h2 ⊢
      rw [gemini_check_circuit_failures] at h2
      exact gemini_check_circuit_until_of_ge cfg now _ h2
    · rw [if_neg hkey] at h1 h2 ⊢
      exact gemini_attempts_circuit cfg now q tool ctx oracle cfg.geminiMaxRetries n st h1 h2
  · intro hact hcirc htool hmr
    unfold call_gemini
    rw [if_neg (fun hc => hc hact), if_neg hcirc]
    have hkey : ¬ (truthyS tool = true ∧ (lookupGuidance (optVal tool)).isNone = true) := by
      intro hk
      have := htool hk.1
      rw [Option.isNone_iff_eq_none] at hk
      rw [hk.2] at this
      cases this
    rw [if_neg hkey]
    obtain ⟨r, hrr⟩ : ∃ r, cfg.geminiMaxRetries = r + 1 := ⟨cfg.geminiMaxRetries - 1, by omega⟩
    rw [hrr]
    exact gemini_attempts_consumed_pos cfg now q tool ctx oracle r n st
  · intro hen hkey hcirc
    have hact : isOpenaiActive cfg st now = false := by
      simp [isOpenaiActive, not_le.2 hcirc]
    unfold call_openai
    rw [if_pos (by simp [hact])]
  · intro hact h1 h2
    have hcirc : ¬ now < st.openaiCircuitUntil := by
      unfold isOpenaiActive at hact
      simp only [Bool.and_eq_true, decide_eq_true_eq] at hact
      exact not_lt.2 hact.2
    unfold call_openai at h1 h2 ⊢
    rw [if_neg (fun hc => hc hact), if_neg hcirc] at h1 h2 ⊢
    by_cases hkey : truthyS tool = true ∧ (lookupGuidance (optVal tool)).isNone = true
    · rw [if_pos hkey] at h2 ⊢
      rw [openai_check_circuit_failures] at h2
      exact openai_check_circuit_until_of_ge cfg now _ h2
    · rw [if_neg hkey] at h1 h2 ⊢
      exact openai_attempts_circuit cfg now q tool ctx oracle cfg.openaiMaxRetries n st h1 h2
  · intro hact htool hmr
    have hcirc : ¬ now < st.openaiCircuitUntil := by
      unfold isOpenaiActive at hact
      simp only [Bool.and_eq_true, decide_eq_true_eq] at hact
      exact not_lt.2 hact.2
    unfold call_openai
    rw [if_neg (fun hc => hc hact), if_neg hcirc]
    have hkey : ¬ (truthyS tool = true ∧ (lookupGuidance (optVal tool)).isNone = true) := by
      intro hk
      have := htool hk.1
      rw [Option.isNone_iff_eq_none] at hk
      rw [hk.2] at this
      cases this
    rw [if_neg hkey]
    obtain ⟨r, hrr⟩ : ∃ r, cfg.openaiMaxRetries = r + 1 := ⟨cfg.openaiMaxRetries - 1, by omega⟩
    rw [hrr]
    exact openai_attempts_consumed_pos cfg now q tool ctx oracle r n st

/-- C7 witness: breaker open until 100 after 3 failures.  At time 50 the call
is skipped with no attempt; at time 100 the probe consumes an attempt, fails
with 503 and re-opens the circuit until 160. -/
theorem circuit_breaker_lifecycle_witness :
    call_gemini cfgG stOpen 50 "q" none emptyCtx orc503 0 = (none, stOpen, 0) ∧
    (call_gemini cfgG stOpen 100 "q" none emptyCtx orc503 0).2.1.geminiCircuitUntil =
      100 + cfgG.geminiCircuitCooldown ∧
    1 ≤ (call_gemini cfgG stOpen 100 "q" none emptyCtx orc503 0).2.2 :=
  have h50 := circuit_breaker_lifecycle cfgG stOpen 50 "q" none emptyCtx orc503 0
  have h100 := circuit_breaker_lifecycle cfgG stOpen 100 "q" none emptyCtx orc503 0
  ⟨h50.1 (by decide),
   h100.2.1 (by decide) (by decide) (by decide) (by decide),
   h100.2.2.1 (by decide) (by decide) (fun ht => absurd ht (by decide)) (by decide)⟩

/-! ## Lemmas: no usable answer, variant loop -/

theorem gemini_attempts_not_usable (cfg : Config) (now : Int) (q : String)
    (tool : Option String) (ctx : Ctx) (oracle : Nat → AttemptResult)
    (h : ∀ i, attemptUsable (oracle i) = false) :
    ∀ rem n st, (gemini_attempts cfg now q tool ctx oracle n rem st).1 = none ∨
      (gemini_attempts cfg now q tool ctx oracle n rem st).1 = some "" := by
  intro rem
  induction rem with
  | zero => exact fun n st => Or.inl rfl
  | succ r ih =>
    intro n st
    cases horc : oracle n with
    | success t =>
      have hu := h n
      rw [horc] at hu
      simp only [attemptUsable, decide_eq_false_iff_not, not_not] at hu
      by_cases ht : t = ""
      · simp only [gemini_attempts, horc, if_pos ht]
        exact Or.inl trivial
      · simp only [gemini_attempts, horc, if_neg ht]
        exact Or.inr (by rw [hu])
    | failure code =>
      simp only [gemini_attempts, horc]
      by_cases h5 : 500 ≤ code
      · rw [if_pos h5]
        by_cases h503 : code = 503
        · simp only [if_pos h503]
          exact Or.inl trivial
        · simp only [if_neg h503]
          exact ih (n + 1) _
      · rw [if_neg h5]
        exact ih (n + 1) st
    | exception =>
      simp only [gemini_attempts, horc]
      exact Or.inl trivial

theorem openai_attempts_not_usable (cfg : Config) (now : Int) (q : String)
    (tool : Option String) (ctx : Ctx) (oracle : Nat → AttemptResult)
    (h : ∀ i, attemptUsable (oracle i) = false) :
    ∀ rem n st, (openai_attempts cfg now q tool ctx oracle n rem st).1 = none ∨
      (openai_attempts cfg now q tool ctx oracle n rem st).1 = some "" := by
  intro rem
  induction rem with
  | zero => exact fun n st => Or.inl rfl
  | succ r ih =>
    intro n st
    cases horc : oracle n with
    | success t =>
      have hu := h n
      rw [horc] at hu
      simp only [attemptUsable, decide_eq_false_iff_not, not_not] at hu
      by_cases ht : t = ""
      · simp only [openai_attempts, horc, if_pos ht]
        exact Or.inl trivial
      · simp only [openai_attempts, horc, if_neg ht]
        exact Or.inr (by rw [hu])
    | failure code =>
      simp only [openai_attempts, horc]
      by_cases h5 : 500 ≤ code
      · rw [if_pos h5]
        by_cases h503 : code = 503 ∧ cfg.openaiCircuitThreshold ≤ st.openaiFailures + 1
        · simp only [if_pos h503]
          exact Or.inl trivial
        · simp only [if_neg h503]
          exact ih (n + 1) _
      · rw [if_neg h5]
        exact ih (n + 1) st
    | exception =>
      simp only [openai_attempts, horc]
      exact Or.inl trivial

theorem call_gemini_not_usable (cfg : Config) (st : AssistantState) (now : Int) (q : String)
    (tool : Option String) (ctx : Ctx) (oracle : Nat → AttemptResult) (n : Nat)
    (h : ∀ i, attemptUsable (oracle i) = false) :
    (call_gemini cfg st now q tool ctx oracle n).1 = none ∨
      (call_gemini cfg st now q tool ctx oracle n).1 = some "" := by
  unfold call_gemini
  split
  · exact Or.inl rfl
  · split
    · exact Or.inl rfl
    · split
      · exact Or.inl rfl
      · exact gemini_attempts_not_usable cfg now q tool ctx oracle h cfg.geminiMaxRetries n st

theorem call_openai_not_usable (cfg : Config) (st : AssistantState) (now : Int) (q : String)
    (tool : Option String) (ctx : Ctx) (oracle : Nat → AttemptResult) (n : Nat)
    (h : ∀ i, attemptUsable (oracle i) = false) :
    (call_openai cfg st now q tool ctx oracle n).1 = none ∨
      (call_openai cfg st now q tool ctx oracle n).1 = some "" := by
  unfold call_openai
  split
  · exact Or.inl rfl
  · split
    · exact Or.inl rfl
    · split
      · exact Or.inl rfl
      · exact openai_attempts_not_usable cfg now q tool ctx oracle h cfg.openaiMaxRetries n st

theorem variant_loop_none
    (call : AssistantState → Nat → Option String → Option String × AssistantState × Nat)
    (h : ∀ s n v, (call s n v).1 = none ∨ (call s n v).1 = some "") :
    ∀ vs st n, (variant_loop call vs st n).1 = none := by
  intro vs
  induction vs with
  | nil => exact fun st n => rfl
  | cons v t ih =>
    intro st n
    simp only [variant_loop]
    rcases h st n v with hr | hr
    · rw [hr]
      dsimp only
      exact ih _ _
    · rw [hr]
      dsimp only
      rw [if_neg (fun hc => hc rfl)]
      exact ih _ _

theorem variant_loop_mem
    (call : AssistantState → Nat → Option String → Option String × AssistantState × Nat) :
    ∀ vs st n vb, (variant_loop call vs st n).1 = some vb → vb.1 ∈ vs := by
  intro vs
  induction vs with
  | nil =>
    intro st n vb h
    cases h
  | cons v t ih =>
    intro st n vb h
    simp only [variant_loop] at h
    cases hr : (call st n v).1 with
    | some a =>
      rw [hr] at h
      dsimp only at h
      by_cases ha : a ≠ ""
      · rw [if_pos ha] at h
        injection h with h2
        rw [← h2]
        exact .head _
      · rw [if_neg ha] at h
        exact .tail _ (ih _ _ vb h)
    | none =>
      rw [hr] at h
      dsimp only at h
      exact .tail _ (ih _ _ vb h)

theorem variant_loop_state
    (call : AssistantState → Nat → Option String → Option String × AssistantState × Nat)
    (P : AssistantState → Prop) (h : ∀ s n v, P s → P (call s n v).2.1) :
    ∀ vs st n, P st → P (variant_loop call vs st n).2.1 := by
  intro vs
  induction vs with
  | nil => exact fun st n hp => hp
  | cons v t ih =>
    intro st n hp
    simp only [variant_loop]
    cases hr : (call st n v).1 with
    | some a =>
      dsimp only
      by_cases ha : a ≠ ""
      · rw [if_pos ha]
        exact h st n v hp
      · rw [if_neg ha]
        exact ih _ _ (h st n v hp)
    | none =>
      dsimp only
      exact ih _ _ (h st n v hp)

/-! ## Lemmas: tool resolution and response building never raise -/

theorem lookup_catalog_keys : ∀ kg ∈ toolGuidance, (lookupGuidance kg.1).isSome = true := by
  decide

theorem resolve_step_sound (tl : String) :
    ∀ (l : List (String × Guidance)) (acc : Option String × Nat),
      (∀ s, acc.1 = some s → (lookupGuidance s).isSome = true) →
      (∀ kg ∈ l, (lookupGuidance kg.1).isSome = true) →
      ∀ s, (l.foldl (resolve_step tl) acc).1 = some s → (lookupGuidance s).isSome = true := by
  intro l
  induction l with
  | nil =>
    intro acc hacc _ s hs
    exact hacc s hs
  | cons kg t ih =>
    intro acc hacc hl s hs
    rw [List.foldl_cons] at hs
    refine ih (resolve_step tl acc kg) ?_ (fun x hx => hl x (.tail _ hx)) s hs
    intro s2 hs2
    unfold resolve_step at hs2
    split at hs2
    · dsimp only at hs2
      injection hs2 with h2
      rw [← h2]
      exact hl kg (.head _)
    · exact hacc s2 hs2

theorem resolve_tool_cases (text : String) (hint : Option String) :
    resolve_tool text hint = none ∨
    ∃ s, resolve_tool text hint = some s ∧ (lookupGuidance s).isSome = true := by
  simp only [resolve_tool]
  split
  · rename_i hcond
    exact Or.inr ⟨_, rfl, hcond.2⟩
  · split
    · cases hb : (toolGuidance.foldl (resolve_step (lowerStr text))
          ((none : Option String), (0 : Nat))).1 with
      | none => exact Or.inl rfl
      | some s2 =>
        exact Or.inr ⟨s2, rfl, resolve_step_sound (lowerStr text) toolGuidance
          ((none : Option String), (0 : Nat)) (fun s hs => by cases hs)
          lookup_catalog_keys s2 hb⟩
    · exact Or.inl rfl

theorem resolve_tool_toolOk (text : String) (hint : Option String) :
    toolOk (resolve_tool text hint) := by
  rcases resolve_tool_cases text hint with h | ⟨s, hs, hl⟩
  · intro ht
    rw [h] at ht
    exact absurd ht (by decide)
  · intro _
    rw [hs]
    simpa [optVal] using hl

theorem toolOk_none : toolOk none := fun ht => absurd ht (by decide)

theorem pyOr_toolOk (a b : Option String) (ha : toolOk a) (hb : toolOk b) : toolOk (pyOr a b) := by
  unfold pyOr
  split
  · exact ha
  · exact hb

theorem wrap_ai_answer_ok (v : Option String) (a : String) (ctx : Ctx) (h : toolOk v) :
    ∃ x, wrap_ai_answer v a ctx = .ok x := by
  unfold wrap_ai_answer
  split
  · rename_i ht
    cases hl : lookupGuidance (optVal v) with
    | none =>
      have := h ht
      rw [hl] at this
      cases this
    | some g =>
      exact ⟨build_ai_tool_response (optVal v) g a ctx, rfl⟩
  · exact ⟨_, rfl⟩

theorem default_response_ok (cfg : Config) (st : AssistantState) (now : Int)
    (oracle : Nat → AttemptResult) (n : Nat) :
    ∃ x, (default_response cfg st now oracle n).1 = .ok x := by
  unfold default_response
  split
  · cases hr : (call_gemini cfg st now
        "Briefly introduce how you can help with IT, systems, and networking questions."
        none emptyCtx oracle n).1 with
    | some a =>
      simp only [hr]
      split
      · exact ⟨_, rfl⟩
      · exact ⟨_, rfl⟩
    | none =>
      simp only [hr]
      exact ⟨_, rfl⟩
  · exact ⟨_, rfl⟩

theorem gemini_stage_ok (cfg : Config) (st : AssistantState) (now : Int) (text : String)
    (selected : Option String) (ctx : Ctx) (oracle : Nat → AttemptResult) (n : Nat)
    (h : toolOk selected) :
    ∃ x, (gemini_stage cfg st now text selected ctx oracle n).1 = .ok x := by
  unfold gemini_stage
  cases hc : hit_answer (cache_get cfg st now text selected ctx).1 with
  | some a =>
    simp only [hc]
    exact wrap_ai_answer_ok selected a ctx h
  | none =>
    simp only [hc]
    cases hl : (variant_loop (fun s m v => call_gemini cfg s now text v ctx oracle m)
        [selected, none, selected] (cache_get cfg st now text selected ctx).2 n).1 with
    | some vb =>
      simp only [hl]
      have hmem := variant_loop_mem _ _ _ _ vb hl
      have hok : toolOk vb.1 := by
        rcases List.mem_cons.1 hmem with h1 | h1
        · rw [h1]; exact h
        rcases List.mem_cons.1 h1 with h2 | h2
        · rw [h2]; exact toolOk_none
        rcases List.mem_cons.1 h2 with h3 | h3
        · rw [h3]; exact h
        · cases h3
      exact wrap_ai_answer_ok vb.1 vb.2 ctx hok
    | none =>
      simp only [hl]
      exact ⟨_, rfl⟩

theorem post_openai_ok (cfg : Config) (st : AssistantState) (now : Int) (text : String)
    (selected : Option String) (ctx : Ctx) (oracle : Nat → AttemptResult) (n : Nat)
    (h : toolOk selected) :
    ∃ x, (post_openai cfg st now text selected ctx oracle n).1 = .ok x := by
  unfold post_openai
  split
  · exact gemini_stage_ok cfg st now text selected ctx oracle n h
  · split
    · rename_i hgem ht
      cases hl : lookupGuidance (optVal selected) with
      | none =>
        have := h ht
        rw [hl] at this
        cases this
      | some g =>
        exact ⟨build_tool_response (optVal selected) g ctx, rfl⟩
    · exact default_response_ok cfg st now oracle n

theorem openai_stage_ok (cfg : Config) (st : AssistantState) (now : Int) (text : String)
    (selected : Option String) (ctx : Ctx) (oracle : Nat → AttemptResult)
    (h : toolOk selected) :
    ∃ x, (openai_stage cfg st now text selected ctx oracle).1 = .ok x := by
  unfold openai_stage
  cases hc : hit_answer (cache_get cfg st now text selected ctx).1 with
  | some a =>
    simp only [hc]
    exact wrap_ai_answer_ok selected a ctx h
  | none =>
    simp only [hc]
    cases hl : (variant_loop (fun s m v => call_openai cfg s now text v ctx oracle m)
        [selected, none, selected] (cache_get cfg st now text selected ctx).2 0).1 with
    | some vb =>
      simp only [hl]
      have hmem := variant_loop_mem _ _ _ _ vb hl
      have hok : toolOk vb.1 := by
        rcases List.mem_cons.1 hmem with h1 | h1
        · rw [h1]; exact h
        rcases List.mem_cons.1 h1 with h2 | h2
        · rw [h2]; exact toolOk_none
        rcases List.mem_cons.1 h2 with h3 | h3
        · rw [h3]; exact h
        · cases h3
      exact wrap_ai_answer_ok vb.1 vb.2 ctx hok
    | none =>
      simp only [hl]
      obtain ⟨x, hx⟩ := post_openai_ok cfg
        (variant_loop (fun s m v => call_openai cfg s now text v ctx oracle m)
          [selected, none, selected] (cache_get cfg st now text selected ctx).2 0).2.1
        now text selected ctx oracle
        (variant_loop (fun s m v => call_openai cfg s now text v ctx oracle m)
          [selected, none, selected] (cache_get cfg st now text selected ctx).2 0).2.2 h
      exact ⟨x, hx⟩

/-- C2 counterexample: with no provider configured, a question matching no
tool, and a context whose `tool` field names an unknown tool, `answer`
reaches `_build_tool_response("bogus", ...)`, whose `self.tools[tool]`
raises `KeyError` — an exception propagates to the caller instead of a
well-formed Answer. -/
theorem answer_raises_on_unknown_context_tool :
    answer cfgNone st0 0 "hello" none (some ⟨some "bogus", none, none⟩) orc503 =
      (.error (), st0, 0) := by decide

/-- C2 (amended): for every configuration, state, question, tool hint and
oracle, as long as the caller-supplied context carries no unknown tool name
(absent, empty, or a catalog key), `answer` returns a well-formed Answer:
provider failures, exhaustion and the all-providers-unavailable case are all
resolved into an `Except.ok` result, never an exception. -/
theorem answer_total_on_known_context_tool (cfg : Config) (st : AssistantState) (now : Int)
    (question : String) (hint : Option String) (ctx? : Option Ctx)
    (oracle : Nat → AttemptResult) (hctx : toolOk ((ctx?.getD emptyCtx).tool)) :
    ∃ x, (answer cfg st now question hint ctx? oracle).1 = .ok x := by
  simp only [answer]
  split
  · exact default_response_ok cfg st now oracle 0
  · have hsel : toolOk (pyOr (resolve_tool (pyStrip question) hint)
        ((ctx?.getD emptyCtx).tool)) :=
      pyOr_toolOk _ _ (resolve_tool_toolOk _ _) hctx
    split
    · exact openai_stage_ok cfg st now (pyStrip question) _ (ctx?.getD emptyCtx) oracle hsel
    · exact post_openai_ok cfg st now (pyStrip question) _ (ctx?.getD emptyCtx) oracle 0 hsel

/-- C2 witness: a question under a context naming a known tool, no providers
configured: the deterministic guidance answer is returned. -/
theorem answer_total_on_known_context_tool_witness :
    ∃ x, (answer cfgNone st0 0 "hello" none (some ⟨some "whois", none, none⟩) orc503).1 =
      .ok x :=
  answer_total_on_known_context_tool cfgNone st0 0 "hello" none
    (some ⟨some "whois", none, none⟩) orc503 (fun _ => by decide)

theorem gemini_stage_exhausted (cfg : Config) (st : AssistantState) (now : Int) (text : String)
    (selected : Option String) (ctx : Ctx) (oracle : Nat → AttemptResult) (n : Nat)
    (horc : ∀ i, attemptUsable (oracle i) = false)
    (hmiss : hit_answer (cache_get cfg st now text selected ctx).1 = none) :
    (gemini_stage cfg st now text selected ctx oracle n).1 = .ok fallback_unavailable := by
  unfold gemini_stage
  simp only [hmiss]
  have hnone := variant_loop_none (fun s m v => call_gemini cfg s now text v ctx oracle m)
    (fun s m v => call_gemini_not_usable cfg s now text v ctx oracle m horc)
    [selected, none, selected] (cache_get cfg st now text selected ctx).2 n
  simp only [hnone]

/-- C1 counterexample: Gemini configured, question "what is whois" (the
WHOIS tool is resolved), every attempt answered 503.  After exhausting the
three prompt variants, `answer` returns the static "assistant unavailable"
answer, not the deterministic WHOIS guidance answer from the catalog that
the claim requires for a resolved tool. -/
theorem answer_exhausted_not_tool_guidance :
    resolve_tool "what is whois" none = some "whois" ∧
    (answer cfgG st0 0 "what is whois" none none orc503).1 = .ok fallback_unavailable ∧
    fallback_unavailable ≠ build_tool_response "whois" whoisGuidance emptyCtx ∧
    (answer cfgG st0 0 "what is whois" none none orc503).2.2 = 3 := by decide

theorem openai_check_circuit_cache (cfg : Config) (now : Int) (st : AssistantState) :
    (openai_check_circuit cfg now st).cache = st.cache := by
  unfold openai_check_circuit openai_open_circuit
  split <;> rfl

theorem openai_attempts_cache_not_usable (cfg : Config) (now : Int) (q : String)
    (tool : Option String) (ctx : Ctx) (oracle : Nat → AttemptResult)
    (h : ∀ i, attemptUsable (oracle i) = false) :
    ∀ rem n st, (openai_attempts cfg now q tool ctx oracle n rem st).2.1.cache = st.cache := by
  intro rem
  induction rem with
  | zero =>
    intro n st
    simp only [openai_attempts]
    exact openai_check_circuit_cache cfg now st
  | succ r ih =>
    intro n st
    cases horc : oracle n with
    | success t =>
      have hu := h n
      rw [horc] at hu
      simp only [attemptUsable, decide_eq_false_iff_not, not_not] at hu
      by_cases ht : t = ""
      · simp only [openai_attempts, horc, if_pos ht]
        exact openai_check_circuit_cache cfg now st
      · simp only [openai_attempts, horc, if_neg ht]
        rw [hu]
        rfl
    | failure code =>
      simp only [openai_attempts, horc]
      by_cases h5 : 500 ≤ code
      · rw [if_pos h5]
        by_cases h503 : code = 503 ∧ cfg.openaiCircuitThreshold ≤ st.openaiFailures + 1
        · simp only [if_pos h503]
          rfl
        · simp only [if_neg h503]
          exact ih (n + 1) _
      · rw [if_neg h5]
        exact ih (n + 1) st
    | exception =>
      simp only [openai_attempts, horc]
      exact openai_check_circuit_cache cfg now _

theorem call_openai_cache_not_usable (cfg : Config) (st : AssistantState) (now : Int)
    (q : String) (tool : Option String) (ctx : Ctx) (oracle : Nat → AttemptResult) (n : Nat)
    (h : ∀ i, attemptUsable (oracle i) = false) :
    (call_openai cfg st now q tool ctx oracle n).2.1.cache = st.cache := by
  unfold call_openai
  split
  · rfl
  · split
    · rfl
    · split
      · exact openai_check_circuit_cache cfg now _
      · exact openai_attempts_cache_not_usable cfg now q tool ctx oracle h
          cfg.openaiMaxRetries n st

theorem cache_get_fst_congr (cfg : Config) (st1 st2 : AssistantState) (now : Int) (q : String)
    (tool : Option String) (ctx : Ctx) (h : st1.cache = st2.cache) :
    (cache_get cfg st1 now q tool ctx).1 = (cache_get cfg st2 now q tool ctx).1 := by
  simp only [cache_get, h]
  cases hg : dictGet st2.cache (cache_key q tool ctx) with
  | none => rfl
  | some v =>
    obtain ⟨a, ts⟩ := v
    dsimp only
    by_cases hex : now - ts > cfg.geminiCacheTtl
    · rw [if_pos hex, if_pos hex]
    · rw [if_neg hex, if_neg hex]

theorem hit_answer_cache_get_again (cfg : Config) (st : AssistantState) (now : Int)
    (q : String) (tool : Option String) (ctx : Ctx) (hwf : cacheWF st.cache)
    (h : hit_answer (cache_get cfg st now q tool ctx).1 = none) :
    hit_answer (cache_get cfg (cache_get cfg st now q tool ctx).2 now q tool ctx).1 = none := by
  cases hg : dictGet st.cache (cache_key q tool ctx) with
  | none =>
    have h2 : (cache_get cfg st now q tool ctx).2 = st := by
      simp only [cache_get, hg]
    rw [h2]
    exact h
  | some v =>
    obtain ⟨a, ts⟩ := v
    by_cases hex : now - ts > cfg.geminiCacheTtl
    · have h2 : (cache_get cfg st now q tool ctx).2 =
          { st with cache := dictPop st.cache (cache_key q tool ctx) } := by
        simp only [cache_get, hg]
        rw [if_pos hex]
      rw [h2]
      have hg2 : dictGet (dictPop st.cache (cache_key q tool ctx)) (cache_key q tool ctx) =
          none := dictGet_dictPop_self st.cache _ hwf
      simp only [cache_get, hg2]
      rfl
    · have h2 : (cache_get cfg st now q tool ctx).2 = st := by
        simp only [cache_get, hg]
        rw [if_neg hex]
      rw [h2]
      exact h

theorem post_openai_exhausted (cfg : Config) (st : AssistantState) (now : Int) (text : String)
    (selected : Option String) (ctx : Ctx) (oracle : Nat → AttemptResult) (n : Nat)
    (horc : ∀ i, attemptUsable (oracle i) = false)
    (hmiss : hit_answer (cache_get cfg st now text selected ctx).1 = none) :
    (isGeminiActive cfg = true →
      (post_openai cfg st now text selected ctx oracle n).1 = .ok fallback_unavailable) ∧
    (isGeminiActive cfg = false →
      (∀ s g, selected = some s → s ≠ "" → lookupGuidance s = some g →
        (post_openai cfg st now text selected ctx oracle n).1 =
          .ok (build_tool_response s g ctx)) ∧
      (truthyS selected = false →
        (post_openai cfg st now text selected ctx oracle n).1 = .ok fallback_unavailable)) := by
  refine ⟨?_, fun hgem => ⟨?_, ?_⟩⟩
  · intro hgem
    unfold post_openai
    rw [if_pos hgem]
    exact gemini_stage_exhausted cfg st now text selected ctx oracle n horc hmiss
  · intro s g hsel hs hg
    unfold post_openai
    rw [if_neg (by simp [hgem])]
    simp only [hsel]
    rw [if_pos (show truthyS (some s) = true by simp [truthyS, hs])]
    dsimp only [optVal, Option.getD]
    rw [hg]
  · intro hfalse
    unfold post_openai
    rw [if_neg (by simp [hgem]), if_neg (by simp [hfalse])]
    unfold default_response
    rw [if_neg (by simp [hgem])]

theorem openai_stage_exhausted_post (cfg : Config) (st : AssistantState) (now : Int)
    (text : String) (selected : Option String) (ctx : Ctx) (oracle : Nat → AttemptResult)
    (horc : ∀ i, attemptUsable (oracle i) = false) (hwf : cacheWF st.cache)
    (hmiss : hit_answer (cache_get cfg st now text selected ctx).1 = none) :
    ∃ st2 m, (openai_stage cfg st now text selected ctx oracle).1 =
      (post_openai cfg st2 now text selected ctx oracle m).1 ∧
      hit_answer (cache_get cfg st2 now text selected ctx).1 = none := by
  refine ⟨(variant_loop (fun s m v => call_openai cfg s now text v ctx oracle m)
      [selected, none, selected] (cache_get cfg st now text selected ctx).2 0).2.1,
    (variant_loop (fun s m v => call_openai cfg s now text v ctx oracle m)
      [selected, none, selected] (cache_get cfg st now text selected ctx).2 0).2.2, ?_, ?_⟩
  · unfold openai_stage
    simp only [hmiss]
    have hnone := variant_loop_none (fun s m v => call_openai cfg s now text v ctx oracle m)
      (fun s m v => call_openai_not_usable cfg s now text v ctx oracle m horc)
      [selected, none, selected] (cache_get cfg st now text selected ctx).2 0
    simp only [hnone]
  · have hcacheeq : (variant_loop (fun s m v => call_openai cfg s now text v ctx oracle m)
        [selected, none, selected] (cache_get cfg st now text selected ctx).2 0).2.1.cache =
        (cache_get cfg st now text selected ctx).2.cache :=
      variant_loop_state (fun s m v => call_openai cfg s now text v ctx oracle m)
        (fun s => s.cache = (cache_get cfg st now text selected ctx).2.cache)
        (fun s m v hp =>
          (call_openai_cache_not_usable cfg s now text v ctx oracle m horc).trans hp)
        [selected, none, selected] (cache_get cfg st now text selected ctx).2 0 rfl
    rw [cache_get_fst_congr cfg _ (cache_get cfg st now text selected ctx).2 now text
      selected ctx hcacheeq]
    exact hit_answer_cache_get_again cfg st now text selected ctx hwf hmiss

/-- C1 (amended): if the question is nonempty, the cache misses, and no
attempt yields usable answer text — so every configured provider is skipped
or exhausted — then: when Gemini is active, `answer` returns the static
"assistant unavailable" answer listing all supported tools regardless of any
resolved tool (even when OpenAI was active and exhausted first); when Gemini
is inactive (whether or not OpenAI was configured and exhausted), a resolved
tool yields the deterministic answer built from that tool's catalog entry,
and with no resolved tool the static unavailable answer is returned. -/
theorem answer_exhausted_unavailable (cfg : Config) (st : AssistantState) (now : Int)
    (question : String) (hint : Option String) (ctx? : Option Ctx)
    (oracle : Nat → AttemptResult) (htext : pyStrip question ≠ "")
    (horc : ∀ i, attemptUsable (oracle i) = false) (hwf : cacheWF st.cache)
    (hmiss : hit_answer (cache_get cfg st now (pyStrip question)
      (pyOr (resolve_tool (pyStrip question) hint) ((ctx?.getD emptyCtx).tool))
      (ctx?.getD emptyCtx)).1 = none) :
    (isGeminiActive cfg = true →
      (answer cfg st now question hint ctx? oracle).1 = .ok fallback_unavailable) ∧
    (isGeminiActive cfg = false →
      (∀ s g, pyOr (resolve_tool (pyStrip question) hint) ((ctx?.getD emptyCtx).tool) =
          some s → s ≠ "" → lookupGuidance s = some g →
        (answer cfg st now question hint ctx? oracle).1 =
          .ok (build_tool_response s g (ctx?.getD emptyCtx))) ∧
      (truthyS (pyOr (resolve_tool (pyStrip question) hint) ((ctx?.getD emptyCtx).tool)) =
          false →
        (answer cfg st now question hint ctx? oracle).1 = .ok fallback_unavailable)) := by
  have hpost : ∃ st2 m, (answer cfg st now question hint ctx? oracle).1 =
      (post_openai cfg st2 now (pyStrip question)
        (pyOr (resolve_tool (pyStrip question) hint) ((ctx?.getD emptyCtx).tool))
        (ctx?.getD emptyCtx) oracle m).1 ∧
      hit_answer (cache_get cfg st2 now (pyStrip question)
        (pyOr (resolve_tool (pyStrip question) hint) ((ctx?.getD emptyCtx).tool))
        (ctx?.getD emptyCtx)).1 = none := by
    by_cases hopen : isOpenaiActive cfg st now = true
    · obtain ⟨st2, m, heq, hm2⟩ := openai_stage_exhausted_post cfg st now (pyStrip question)
        (pyOr (resolve_tool (pyStrip question) hint) ((ctx?.getD emptyCtx).tool))
        (ctx?.getD emptyCtx) oracle horc hwf hmiss
      refine ⟨st2, m, ?_, hm2⟩
      rw [← heq]
      simp only [answer]
      rw [if_neg htext, if_pos hopen]
    · refine ⟨st, 0, ?_, hmiss⟩
      simp only [answer]
      rw [if_neg htext, if_neg hopen]
  obtain ⟨st2, m, heq, hm2⟩ := hpost
  have hp := post_openai_exhausted cfg st2 now (pyStrip question)
    (pyOr (resolve_tool (pyStrip question) hint) ((ctx?.getD emptyCtx).tool))
    (ctx?.getD emptyCtx) oracle m horc hm2
  refine ⟨fun hgem => ?_, fun hgem => ⟨fun s g hsel hs hg => ?_, fun hfalse => ?_⟩⟩
  · rw [heq]
    exact hp.1 hgem
  · rw [heq]
    exact (hp.2 hgem).1 s g hsel hs hg
  · rw [heq]
    exact (hp.2 hgem).2 hfalse

/-- C1 witness: the exhausted-Gemini branch at the concrete 503 scenario,
and the exhausted-OpenAI-with-Gemini-inactive branch returning the WHOIS
guidance answer. -/
theorem answer_exhausted_unavailable_witness :
    (answer cfgG st0 0 "what is whois" none none orc503).1 = .ok fallback_unavailable ∧
    (answer cfgO st0 0 "what is whois" none none orc503).1 =
      .ok (build_tool_response "whois" whoisGuidance emptyCtx) :=
  ⟨(answer_exhausted_unavailable cfgG st0 0 "what is whois" none none orc503 (by decide)
      (fun i => rfl) (by decide) (by decide)).1 (by decide),
   ((answer_exhausted_unavailable cfgO st0 0 "what is whois" none none orc503 (by decide)
      (fun i => rfl) (by decide) (by decide)).2 (by decide)).1 "whois" whoisGuidance
      (by decide) (by decide) (by decide)⟩

theorem gemini_check_circuit_openai_fields (cfg : Config) (now : Int) (st : AssistantState) :
    (gemini_check_circuit cfg now st).openaiFailures = st.openaiFailures ∧
    (gemini_check_circuit cfg now st).openaiCircuitUntil = st.openaiCircuitUntil := by
  unfold gemini_check_circuit gemini_open_circuit
  split <;> exact ⟨rfl, rfl⟩

theorem gemini_attempts_openai_fields (cfg : Config) (now : Int) (q : String)
    (tool : Option String) (ctx : Ctx) (oracle : Nat → AttemptResult) :
    ∀ rem n st,
      (gemini_attempts cfg now q tool ctx oracle n rem st).2.1.openaiFailures =
        st.openaiFailures ∧
      (gemini_attempts cfg now q tool ctx oracle n rem st).2.1.openaiCircuitUntil =
        st.openaiCircuitUntil := by
  intro rem
  induction rem with
  | zero => exact fun n st => gemini_check_circuit_openai_fields cfg now st
  | succ r ih =>
    intro n st
    cases horc : oracle n with
    | success t =>
      by_cases ht : t = ""
      · simp only [gemini_attempts, horc, if_pos ht]
        exact gemini_check_circuit_openai_fields cfg now st
      · simp only [gemini_attempts, horc, if_neg ht]
        have hf := cache_set_fields cfg { st with geminiFailures := 0 } now q tool ctx
          (pyStrip t)
        exact ⟨hf.2.2.1, hf.2.2.2⟩
    | failure code =>
      simp only [gemini_attempts, horc]
      by_cases h5 : 500 ≤ code
      · rw [if_pos h5]
        by_cases h503 : code = 503
        · simp only [if_pos h503]
          exact gemini_check_circuit_openai_fields cfg now _
        · simp only [if_neg h503]
          exact ih (n + 1) _
      · rw [if_neg h5]
        exact ih (n + 1) st
    | exception =>
      simp only [gemini_attempts, horc]
      exact gemini_check_circuit_openai_fields cfg now _

theorem call_gemini_openai_fields (cfg : Config) (st : AssistantState) (now : Int) (q : String)
    (tool : Option String) (ctx : Ctx) (oracle : Nat → AttemptResult) (n : Nat) :
    (call_gemini cfg st now q tool ctx oracle n).2.1.openaiFailures = st.openaiFailures ∧
    (call_gemini cfg st now q tool ctx oracle n).2.1.openaiCircuitUntil =
      st.openaiCircuitUntil := by
  unfold call_gemini
  split
  · exact ⟨rfl, rfl⟩
  · split
    · exact ⟨rfl, rfl⟩
    · split
      · exact gemini_check_circuit_openai_fields cfg now _
      · exact gemini_attempts_openai_fields cfg now q tool ctx oracle cfg.geminiMaxRetries n st

theorem default_response_openai_fields (cfg : Config) (st : AssistantState) (now : Int)
    (oracle : Nat → AttemptResult) (n : Nat) :
    (default_response cfg st now oracle n).2.1.openaiFailures = st.openaiFailures ∧
    (default_response cfg st now oracle n).2.1.openaiCircuitUntil = st.openaiCircuitUntil := by
  unfold default_response
  split
  · have hf := call_gemini_openai_fields cfg st now
      "Briefly introduce how you can help with IT, systems, and networking questions."
      none emptyCtx oracle n
    cases hr : (call_gemini cfg st now
        "Briefly introduce how you can help with IT, systems, and networking questions."
        none emptyCtx oracle n).1 with
    | some a =>
      simp only [hr]
      split
      · exact ⟨hf.1, hf.2⟩
      · exact ⟨hf.1, hf.2⟩
    | none =>
      simp only [hr]
      exact ⟨hf.1, hf.2⟩
  · exact ⟨rfl, rfl⟩

/-- C9 counterexample: a whitespace-only question with Gemini active is NOT
handled purely locally: `_default_response` performs a Gemini network call
(one attempt here) and returns its answer. -/
theorem empty_question_calls_gemini :
    pyStrip "   " = "" ∧
    (answer cfgG st0 0 "   " none none orcHi).2.2 = 1 ∧
    (answer cfgG st0 0 "   " none none orcHi).1 =
      .ok (build_ai_general_response "hello!" emptyCtx) := by decide

/-- C9 (amended): an empty or whitespace-only question is answered without
tool resolution and without ever touching OpenAI (its breaker state is
untouched by the whole call); when Gemini is inactive, no network attempt at
all is made and the static unavailable answer is returned — but when Gemini
is active, `_default_response` does attempt one introductory Gemini call. -/
theorem empty_question_never_touches_openai (cfg : Config) (st : AssistantState) (now : Int)
    (question : String) (hint : Option String) (ctx? : Option Ctx)
    (oracle : Nat → AttemptResult) (h : pyStrip question = "") :
    (answer cfg st now question hint ctx? oracle).2.1.openaiFailures = st.openaiFailures ∧
    (answer cfg st now question hint ctx? oracle).2.1.openaiCircuitUntil =
      st.openaiCircuitUntil ∧
    (isGeminiActive cfg = false →
      answer cfg st now question hint ctx? oracle = (.ok fallback_unavailable, st, 0)) := by
  simp only [answer]
  rw [if_pos h]
  have hf := default_response_openai_fields cfg st now oracle 0
  refine ⟨hf.1, hf.2, ?_⟩
  intro hgem
  unfold default_response
  rw [if_neg (by simp [hgem])]

/-- C9 witness: no provider configured, whitespace question: unavailable
answer, state untouched, zero network attempts. -/
theorem empty_question_never_touches_openai_witness :
    (answer cfgNone st0 0 "   " none none orc503).2.1.openaiFailures = st0.openaiFailures ∧
    (answer cfgNone st0 0 "   " none none orc503).2.1.openaiCircuitUntil =
      st0.openaiCircuitUntil ∧
    answer cfgNone st0 0 "   " none none orc503 = (.ok fallback_unavailable, st0, 0) :=
  have h := empty_question_never_touches_openai cfgNone st0 0 "   " none none orc503 (by decide)
  ⟨h.1, h.2.1, h.2.2 (by decide)⟩

theorem call_openai_caches (cfg : Config) (st : AssistantState) (now : Int) (q : String)
    (tool : Option String) (ctx : Ctx) (oracle : Nat → AttemptResult) (n : Nat) (a : String)
    (hc : (call_openai cfg st now q tool ctx oracle n).1 = some a) (ha : a ≠ "") :
    dictGet (call_openai cfg st now q tool ctx oracle n).2.1.cache (cache_key q tool ctx) =
      some (a, now) := by
  unfold call_openai at hc ⊢
  split at hc
  · cases hc
  · split at hc
    · cases hc
    · split at hc
      · cases hc
      · have heq : openai_attempts cfg now q tool ctx oracle n cfg.openaiMaxRetries st =
            (some a,
             (openai_attempts cfg now q tool ctx oracle n cfg.openaiMaxRetries st).2.1,
             (openai_attempts cfg now q tool ctx oracle n cfg.openaiMaxRetries st).2.2) := by
          rw [← hc]
        have hs := openai_attempts_success cfg now q tool ctx oracle cfg.openaiMaxRetries n
          st a _ _ heq
        rename_i h1 h2 h3
        rw [if_neg h1, if_neg h2, if_neg h3]
        exact hs.2.2.2.2 ha

/-- C8 counterexample: when the first call's provider answer is produced with
the tool-agnostic prompt variant (the tool-tailored attempt returned an empty
body), it is cached under the empty-tool key; the second call — same
normalized question, same resolved tool, same (empty) context, within the
TTL — misses the cache and invokes the provider again (one network attempt
instead of zero). -/
theorem second_call_reinvokes_provider :
    normalize_question "what is whois" = normalize_question "What  is whois" ∧
    resolve_tool "what is whois" none = resolve_tool "What  is whois" none ∧
    (answer cfgO st0 0 "what is whois" none none orcC8).1 =
      .ok (build_ai_general_response "X" emptyCtx) ∧
    (answer cfgO (answer cfgO st0 0 "what is whois" none none orcC8).2.1 0
      "What  is whois" none none (fun n => orcC8 (n + 2))).2.2 = 1 := by decide

/-- C8 (amended): questions with equal normalizations map to the same cache
key under the same tool and context; a provider answer obtained for the
resolved tool's own prompt variant is cached under exactly that key; and a
call that finds a fresh nonempty entry under its key is served from the
cache with zero provider network attempts. -/
theorem cache_key_stability_and_hit (cfg : Config) (st : AssistantState) (now : Int)
    (q1 q2 : String) (hint : Option String) (ctx? : Option Ctx) (tool : Option String)
    (ctx : Ctx) (oracle : Nat → AttemptResult) (n : Nat) (a : String) (ts : Int) :
    (normalize_question q1 = normalize_question q2 →
      cache_key q1 tool ctx = cache_key q2 tool ctx) ∧
    ((call_openai cfg st now q1 tool ctx oracle n).1 = some a → a ≠ "" →
      dictGet (call_openai cfg st now q1 tool ctx oracle n).2.1.cache
        (cache_key q1 tool ctx) = some (a, now)) ∧
    (pyStrip q2 ≠ "" → isOpenaiActive cfg st now = true →
      dictGet st.cache (cache_key (pyStrip q2)
        (pyOr (resolve_tool (pyStrip q2) hint) ((ctx?.getD emptyCtx).tool))
        (ctx?.getD emptyCtx)) = some (a, ts) →
      a ≠ "" → now - ts ≤ cfg.geminiCacheTtl →
      (answer cfg st now q2 hint ctx? oracle).1 =
        wrap_ai_answer (pyOr (resolve_tool (pyStrip q2) hint) ((ctx?.getD emptyCtx).tool)) a
          (ctx?.getD emptyCtx) ∧
      (answer cfg st now q2 hint ctx? oracle).2.2 = 0) := by
  refine ⟨?_, fun hc ha => call_openai_caches cfg st now q1 tool ctx oracle n a hc ha, ?_⟩
  · intro hn
    unfold cache_key
    rw [hn]
  · intro htext hact hhit ha httl
    have hcg : cache_get cfg st now (pyStrip q2)
        (pyOr (resolve_tool (pyStrip q2) hint) ((ctx?.getD emptyCtx).tool))
        (ctx?.getD emptyCtx) = (some a, st) := by
      unfold cache_get
      simp only [hhit]
      rw [if_neg (not_lt.2 httl)]
    simp only [answer]
    rw [if_neg htext, if_pos hact]
    unfold openai_stage
    rw [hcg]
    unfold hit_answer
    dsimp only
    rw [if_pos ha]
    exact ⟨rfl, rfl⟩

/-- C8 witness: a cached WHOIS answer "X" written at time 0 is served at time
0 for the differently-spaced question with no provider attempt. -/
theorem cache_key_stability_and_hit_witness :
    cache_key "what is whois" (some "whois") emptyCtx =
      cache_key "What  is whois" (some "whois") emptyCtx ∧
    (answer cfgO stHit 0 "What  is whois" none none orc503).1 =
      wrap_ai_answer (pyOr (resolve_tool (pyStrip "What  is whois") none)
        (((none : Option Ctx)).getD emptyCtx).tool) "X" (((none : Option Ctx)).getD emptyCtx) ∧
    (answer cfgO stHit 0 "What  is whois" none none orc503).2.2 = 0 :=
  have h := cache_key_stability_and_hit cfgO stHit 0 "what is whois" "What  is whois" none
    none (some "whois") emptyCtx orc503 0 "X" 0
  have h3 := h.2.2 (by decide) (by decide) (by decide) (by decide) (by decide)
  ⟨h.1 (by decide), h3.1, h3.2⟩

/-! ## Lemmas: the cache never stores empty answers -/

theorem cacheNonempty_dictSet (m : Cache) (k : CacheKey) (a : String) (ts : Int)
    (hm : cacheNonempty m) (ha : a ≠ "") : cacheNonempty (dictSet m k (a, ts)) := by
  induction m with
  | nil =>
    intro p hp
    rcases List.mem_cons.1 hp with h1 | h1
    · rw [h1]; exact ha
    · cases h1
  | cons x t ih =>
    simp only [dictSet]
    by_cases he : x.1 = k
    · rw [if_pos he]
      intro p hp
      rcases List.mem_cons.1 hp with h1 | h1
      · rw [h1]; exact ha
      · exact hm p (.tail _ h1)
    · rw [if_neg he]
      intro p hp
      rcases List.mem_cons.1 hp with h1 | h1
      · exact hm p (h1 ▸ .head _)
      · exact ih (fun x2 hx2 => hm x2 (.tail _ hx2)) p h1

theorem cacheNonempty_dictPop (m : Cache) (k : CacheKey) (hm : cacheNonempty m) :
    cacheNonempty (dictPop m k) := by
  induction m with
  | nil => exact fun p hp => absurd hp (by simp [dictPop])
  | cons x t ih =>
    simp only [dictPop]
    by_cases he : x.1 = k
    · rw [if_pos he]
      exact fun p hp => hm p (.tail _ hp)
    · rw [if_neg he]
      intro p hp
      rcases List.mem_cons.1 hp with h1 | h1
      · exact hm p (h1 ▸ .head _)
      · exact ih (fun x2 hx2 => hm x2 (.tail _ hx2)) p h1

theorem cacheNonempty_cache_set_map (cfg : Config) (m : Cache) (k : CacheKey) (a : String)
    (ts : Int) (hm : cacheNonempty m) (ha : a ≠ "") :
    cacheNonempty (cache_set_map cfg m k a ts) := by
  simp only [cache_set_map]
  split
  · cases ho : dictOldest (dictSet m k (a, ts)) with
    | none => simpa only [ho] using cacheNonempty_dictSet m k a ts hm ha
    | some e =>
      simp only [ho]
      split
      · exact cacheNonempty_dictSet m k a ts hm ha
      · exact cacheNonempty_dictPop _ _ (cacheNonempty_dictSet m k a ts hm ha)
  · exact cacheNonempty_dictSet m k a ts hm ha

theorem cacheNonempty_cache_set (cfg : Config) (st : AssistantState) (now : Int) (q : String)
    (tool : Option String) (ctx : Ctx) (a : String) (hm : cacheNonempty st.cache) :
    cacheNonempty (cache_set cfg st now q tool ctx a).cache := by
  unfold cache_set
  split
  · exact hm
  · exact cacheNonempty_cache_set_map cfg st.cache _ a now hm (by assumption)

theorem cacheNonempty_cache_get (cfg : Config) (st : AssistantState) (now : Int) (q : String)
    (tool : Option String) (ctx : Ctx) (hm : cacheNonempty st.cache) :
    cacheNonempty (cache_get cfg st now q tool ctx).2.cache := by
  simp only [cache_get]
  cases hg : dictGet st.cache (cache_key q tool ctx) with
  | none =>
    simp only [hg]
    exact hm
  | some v =>
    obtain ⟨a, ts⟩ := v
    simp only [hg]
    split
    · exact cacheNonempty_dictPop _ _ hm
    · exact hm

theorem gemini_attempts_cacheNonempty (cfg : Config) (now : Int) (q : String)
    (tool : Option String) (ctx : Ctx) (oracle : Nat → AttemptResult) :
    ∀ rem n st, cacheNonempty st.cache →
      cacheNonempty (gemini_attempts cfg now q tool ctx oracle n rem st).2.1.cache := by
  intro rem
  induction rem with
  | zero =>
    intro n st hm
    simp only [gemini_attempts]
    unfold gemini_check_circuit gemini_open_circuit
    split <;> exact hm
  | succ r ih =>
    intro n st hm
    cases horc : oracle n with
    | success t =>
      by_cases ht : t = ""
      · simp only [gemini_attempts, horc, if_pos ht]
        unfold gemini_check_circuit gemini_open_circuit
        split <;> exact hm
      · simp only [gemini_attempts, horc, if_neg ht]
        exact cacheNonempty_cache_set cfg _ now q tool ctx _ hm
    | failure code =>
      simp only [gemini_attempts, horc]
      by_cases h5 : 500 ≤ code
      · rw [if_pos h5]
        by_cases h503 : code = 503
        · simp only [if_pos h503]
          unfold gemini_check_circuit gemini_open_circuit
          split <;> exact hm
        · simp only [if_neg h503]
          exact ih (n + 1) _ hm
      · rw [if_neg h5]
        exact ih (n + 1) st hm
    | exception =>
      simp only [gemini_attempts, horc]
      unfold gemini_check_circuit gemini_open_circuit
      split <;> exact hm

theorem openai_attempts_cacheNonempty (cfg : Config) (now : Int) (q : String)
    (tool : Option String) (ctx : Ctx) (oracle : Nat → AttemptResult) :
    ∀ rem n st, cacheNonempty st.cache →
      cacheNonempty (openai_attempts cfg now q tool ctx oracle n rem st).2.1.cache := by
  intro rem
  induction rem with
  | zero =>
    intro n st hm
    simp only [openai_attempts]
    unfold openai_check_circuit openai_open_circuit
    split <;> exact hm
  | succ r ih =>
    intro n st hm
    cases horc : oracle n with
    | success t =>
      by_cases ht : t = ""
      · simp only [openai_attempts, horc, if_pos ht]
        unfold openai_check_circuit openai_open_circuit
        split <;> exact hm
      · simp only [openai_attempts, horc, if_neg ht]
        exact cacheNonempty_cache_set cfg _ now q tool ctx _ hm
    | failure code =>
      simp only [openai_attempts, horc]
      by_cases h5 : 500 ≤ code
      · rw [if_pos h5]
        by_cases h503 : code = 503 ∧ cfg.openaiCircuitThreshold ≤ st.openaiFailures + 1
        · simp only [if_pos h503]
          exact hm
        · simp only [if_neg h503]
          exact ih (n + 1) _ hm
      · rw [if_neg h5]
        exact ih (n + 1) st hm
    | exception =>
      simp only [openai_attempts, horc]
      unfold openai_check_circuit openai_open_circuit
      split <;> exact hm

theorem call_gemini_cacheNonempty (cfg : Config) (st : AssistantState) (now : Int) (q : String)
    (tool : Option String) (ctx : Ctx) (oracle : Nat → AttemptResult) (n : Nat)
    (hm : cacheNonempty st.cache) :
    cacheNonempty (call_gemini cfg st now q tool ctx oracle n).2.1.cache := by
  unfold call_gemini
  split
  · exact hm
  · split
    · exact hm
    · split
      · unfold gemini_check_circuit gemini_open_circuit
        split <;> exact hm
      · exact gemini_attempts_cacheNonempty cfg now q tool ctx oracle cfg.geminiMaxRetries n
          st hm

theorem call_openai_cacheNonempty (cfg : Config) (st : AssistantState) (now : Int) (q : String)
    (tool : Option String) (ctx : Ctx) (oracle : Nat → AttemptResult) (n : Nat)
    (hm : cacheNonempty st.cache) :
    cacheNonempty (call_openai cfg st now q tool ctx oracle n).2.1.cache := by
  unfold call_openai
  split
  · exact hm
  · split
    · exact hm
    · split
      · unfold openai_check_circuit openai_open_circuit
        split <;> exact hm
      · exact openai_attempts_cacheNonempty cfg now q tool ctx oracle cfg.openaiMaxRetries n
          st hm

theorem default_response_cacheNonempty (cfg : Config) (st : AssistantState) (now : Int)
    (oracle : Nat → AttemptResult) (n : Nat) (hm : cacheNonempty st.cache) :
    cacheNonempty (default_response cfg st now oracle n).2.1.cache := by
  unfold default_response
  split
  · have hc := call_gemini_cacheNonempty cfg st now
      "Briefly introduce how you can help with IT, systems, and networking questions."
      none emptyCtx oracle n hm
    cases hr : (call_gemini cfg st now
        "Briefly introduce how you can help with IT, systems, and networking questions."
        none emptyCtx oracle n).1 with
    | some a =>
      simp only [hr]
      split
      · exact hc
      · exact hc
    | none =>
      simp only [hr]
      exact hc
  · exact hm

theorem gemini_stage_cacheNonempty (cfg : Config) (st : AssistantState) (now : Int)
    (text : String) (selected : Option String) (ctx : Ctx) (oracle : Nat → AttemptResult)
    (n : Nat) (hm : cacheNonempty st.cache) :
    cacheNonempty (gemini_stage cfg st now text selected ctx oracle n).2.1.cache := by
  unfold gemini_stage
  have hcg := cacheNonempty_cache_get cfg st now text selected ctx hm
  have hlp := variant_loop_state (fun s m v => call_gemini cfg s now text v ctx oracle m)
    (fun s => cacheNonempty s.cache)
    (fun s m v hp => call_gemini_cacheNonempty cfg s now text v ctx oracle m hp)
    [selected, none, selected] (cache_get cfg st now text selected ctx).2 n hcg
  cases hc : hit_answer (cache_get cfg st now text selected ctx).1 with
  | some a =>
    simp only [hc]
    exact hcg
  | none =>
    simp only [hc]
    cases hl : (variant_loop (fun s m v => call_gemini cfg s now text v ctx oracle m)
        [selected, none, selected] (cache_get cfg st now text selected ctx).2 n).1 with
    | some vb =>
      simp only [hl]
      exact hlp
    | none =>
      simp only [hl]
      exact hlp

theorem post_openai_cacheNonempty (cfg : Config) (st : AssistantState) (now : Int)
    (text : String) (selected : Option String) (ctx : Ctx) (oracle : Nat → AttemptResult)
    (n : Nat) (hm : cacheNonempty st.cache) :
    cacheNonempty (post_openai cfg st now text selected ctx oracle n).2.1.cache := by
  unfold post_openai
  split
  · exact gemini_stage_cacheNonempty cfg st now text selected ctx oracle n hm
  · split
    · cases hl : lookupGuidance (optVal selected) with
      | none => simp only [hl]; exact hm
      | some g => simp only [hl]; exact hm
    · exact default_response_cacheNonempty cfg st now oracle n hm

theorem openai_stage_cacheNonempty (cfg : Config) (st : AssistantState) (now : Int)
    (text : String) (selected : Option String) (ctx : Ctx) (oracle : Nat → AttemptResult)
    (hm : cacheNonempty st.cache) :
    cacheNonempty (openai_stage cfg st now text selected ctx oracle).2.1.cache := by
  unfold openai_stage
  have hcg := cacheNonempty_cache_get cfg st now text selected ctx hm
  have hlp := variant_loop_state (fun s m v => call_openai cfg s now text v ctx oracle m)
    (fun s => cacheNonempty s.cache)
    (fun s m v hp => call_openai_cacheNonempty cfg s now text v ctx oracle m hp)
    [selected, none, selected] (cache_get cfg st now text selected ctx).2 0 hcg
  cases hc : hit_answer (cache_get cfg st now text selected ctx).1 with
  | some a =>
    simp only [hc]
    exact hcg
  | none =>
    simp only [hc]
    cases hl : (variant_loop (fun s m v => call_openai cfg s now text v ctx oracle m)
        [selected, none, selected] (cache_get cfg st now text selected ctx).2 0).1 with
    | some vb =>
      simp only [hl]
      exact hlp
    | none =>
      simp only [hl]
      exact post_openai_cacheNonempty cfg _ now text selected ctx oracle _ hlp

theorem dictGet_mem (m : Cache) (k : CacheKey) (v : String × Int) (h : dictGet m k = some v) :
    (k, v) ∈ m := by
  induction m with
  | nil => cases h
  | cons p t ih =>
    simp only [dictGet] at h
    split at h
    · injection h with h2
      rename_i he
      rw [← h2, ← he]
      exact .head _
    · exact .tail _ (ih h)

/-- C10: `_cache_set` called with an empty answer leaves the state completely
unchanged; consequently the nonempty-answers cache invariant is preserved by
every full `answer` call, and any cache hit carries nonempty answer text. -/
theorem cache_never_stores_empty_answers (cfg : Config) (st : AssistantState) (now : Int)
    (q : String) (tool : Option String) (ctx : Ctx) (question : String)
    (hint : Option String) (ctx? : Option Ctx) (oracle : Nat → AttemptResult) :
    cache_set cfg st now q tool ctx "" = st ∧
    (cacheNonempty st.cache →
      cacheNonempty (answer cfg st now question hint ctx? oracle).2.1.cache) ∧
    (cacheNonempty st.cache →
      ∀ r, (cache_get cfg st now q tool ctx).1 = some r → r ≠ "") := by
  refine ⟨rfl, ?_, ?_⟩
  · intro hm
    simp only [answer]
    split
    · exact default_response_cacheNonempty cfg st now oracle 0 hm
    · split
      · exact openai_stage_cacheNonempty cfg st now (pyStrip question) _
          (ctx?.getD emptyCtx) oracle hm
      · exact post_openai_cacheNonempty cfg st now (pyStrip question) _
          (ctx?.getD emptyCtx) oracle 0 hm
  · intro hm r hr
    simp only [cache_get] at hr
    cases hg : dictGet st.cache (cache_key q tool ctx) with
    | none =>
      simp only [hg] at hr
      cases hr
    | some v =>
      obtain ⟨a, ts⟩ := v
      simp only [hg] at hr
      split at hr
      · cases hr
      · injection hr with h2
        rw [← h2]
        exact hm _ (dictGet_mem st.cache _ (a, ts) hg)

/-- C10 witness: a no-op empty set, invariant preservation and a nonempty hit
at a concrete state with one cached entry. -/
theorem cache_never_stores_empty_answers_witness :
    cache_set cfgG stW 0 "q" none emptyCtx "" = stW ∧
    cacheNonempty (answer cfgG stW 0 "what is whois" none none orc503).2.1.cache ∧
    "x" ≠ "" :=
  have h := cache_never_stores_empty_answers cfgG stW 0 "q" none emptyCtx "what is whois"
    none none orc503
  ⟨h.1, h.2.1 (by decide), h.2.2 (by decide) "x" (by decide)⟩
